import Mathlib

set_option maxHeartbeats 2000000
set_option synthInstance.maxHeartbeats 1000000
set_option maxRecDepth 8000

/-!
# MiniPG: a shallow embedding of the mini Postgres-like engine

This file embeds the data model and the operations of the mini database
engine (`engine.py`): dynamically typed row values, the predicate
evaluator `_evaluate_where`, the query planner (`QueryPlanner`), the
execution engine (`MiniPGEngine`), the sequence cache, and the statistics
manager (`StatsManager`).  Python raised exceptions are modelled with
`Except.error`; engine methods that return error strings as ordinary
values keep that shape.  On-disk JSON documents are modelled as
association lists; a table's `.jsonl` storage file is modelled as the
list of its records.
-/

namespace MiniPG

/-! ## Dynamically typed values

Python scalars flowing through the engine: numbers (`int`/`float`,
compared numerically, here represented exactly as `mant / 10 ^ exp`,
which covers every numeric literal the engine parses; binary floating
point rounding of non-decimal values is not modelled and never exercised
here), strings, booleans, `None`, lists (from the `text[]` cast) and
dicts (a `max`/`min` aggregate over a one-row group returns the row
dict itself). -/

structure PyNum where
  mant : Int
  exp : Nat
  deriving Repr, DecidableEq

def PyNum.ofInt (n : Int) : PyNum := ⟨n, 0⟩

/-- Numeric equality, by cross multiplication (`1 == 1.0` in Python). -/
def pyNumEq (a b : PyNum) : Bool :=
  a.mant * (10 : Int) ^ b.exp == b.mant * (10 : Int) ^ a.exp

def pyNumLt (a b : PyNum) : Bool :=
  decide (a.mant * (10 : Int) ^ b.exp < b.mant * (10 : Int) ^ a.exp)

def pyNumLe (a b : PyNum) : Bool :=
  decide (a.mant * (10 : Int) ^ b.exp ≤ b.mant * (10 : Int) ^ a.exp)

mutual

inductive Value where
  | num (n : PyNum)
  | str (s : String)
  | bool (b : Bool)
  | null
  | pylist (xs : ValueList)
  | pydict (fields : ValueFields)
  deriving Repr, DecidableEq

inductive ValueList where
  | nil
  | cons (v : Value) (rest : ValueList)
  deriving Repr, DecidableEq

inductive ValueFields where
  | nil
  | cons (k : String) (v : Value) (rest : ValueFields)
  deriving Repr, DecidableEq

end

/-- An integer value (a Python `int`, e.g. a freshly parsed JSON integer). -/
def Value.int (n : Int) : Value := .num (PyNum.ofInt n)

/-- A row: a Python dict from column name to value, in insertion order. -/
abbrev Row := List (String × Value)

def ValueFields.ofRow : Row → ValueFields
  | [] => .nil
  | (k, v) :: rest => .cons k v (ValueFields.ofRow rest)

def ValueFields.lookup (k : String) : ValueFields → Option Value
  | .nil => none
  | .cons k' v rest => if k' = k then some v else ValueFields.lookup k rest

def ValueFields.size : ValueFields → Nat
  | .nil => 0
  | .cons _ _ rest => 1 + ValueFields.size rest

/-- Numeric view used by Python comparisons: `bool` is an `int` subtype. -/
def Value.asNum : Value → Option PyNum
  | .num n => some n
  | .bool b => some (PyNum.ofInt (if b then 1 else 0))
  | _ => none

mutual

/-- Python `==` on engine values: numeric across `int`/`float`/`bool`,
structural on strings, `None`, lists, and dicts (dict equality is
key-based and order insensitive, as in Python).  Never raises. -/
def pyEq : Value → Value → Bool
  | .str a, .str b => a == b
  | .null, .null => true
  | .pylist a, .pylist b => pyEqList a b
  | .pydict a, .pydict b => pyEqFields a a.size b
  | a, b =>
    match a.asNum, b.asNum with
    | some x, some y => pyNumEq x y
    | _, _ => false

def pyEqList : ValueList → ValueList → Bool
  | .nil, .nil => true
  | .cons x xs, .cons y ys => pyEq x y && pyEqList xs ys
  | _, _ => false

def pyEqFields : ValueFields → Nat → ValueFields → Bool
  | .nil, n, b => n == b.size
  | .cons k v rest, n, b =>
    (match b.lookup k with
     | some w => pyEq v w
     | none => false) && pyEqFields rest n b

end

mutual

/-- Python `<` on engine values: numeric on numbers/bools, lexicographic
on strings and lists; any other mix (in particular anything involving
`None` or dicts) raises `TypeError`. -/
def pyLt : Value → Value → Except String Bool
  | .str a, .str b => .ok (decide (a < b))
  | .pylist a, .pylist b => pyLtList a b
  | a, b =>
    match a.asNum, b.asNum with
    | some x, some y => .ok (pyNumLt x y)
    | _, _ => .error "TypeError: unsupported operand types for comparison"

def pyLtList : ValueList → ValueList → Except String Bool
  | .nil, .nil => .ok false
  | .nil, .cons _ _ => .ok true
  | .cons _ _, .nil => .ok false
  | .cons x xs, .cons y ys =>
    if pyEq x y then pyLtList xs ys
    else pyLt x y

end

mutual

/-- Python `<=`, same domain as `pyLt`. -/
def pyLe : Value → Value → Except String Bool
  | .str a, .str b => .ok (decide (a ≤ b))
  | .pylist a, .pylist b => pyLeList a b
  | a, b =>
    match a.asNum, b.asNum with
    | some x, some y => .ok (pyNumLe x y)
    | _, _ => .error "TypeError: unsupported operand types for comparison"

def pyLeList : ValueList → ValueList → Except String Bool
  | .nil, _ => .ok true
  | .cons _ _, .nil => .ok false
  | .cons x xs, .cons y ys =>
    if pyEq x y then pyLeList xs ys
    else pyLe x y

end

/-- Python's built-in `min(a, b)`: returns `b` if `b < a` else `a`;
raises whenever the comparison does (in particular `min(None, x)`). -/
def pyMin (a b : Value) : Except String Value := do
  let c ← pyLt b a
  pure (if c then b else a)

/-- Python's built-in `max(a, b)`: returns `b` if `b > a` else `a`. -/
def pyMax (a b : Value) : Except String Value := do
  let c ← pyLt a b
  pure (if c then b else a)

/-- Python values usable as dict keys; lists and dicts are unhashable. -/
def Value.hashable : Value → Bool
  | .pylist _ => false
  | .pydict _ => false
  | _ => true

/-! ## Dict (association list) helpers

Python dicts preserve insertion order; assigning to an existing key
updates it in place, assigning a fresh key appends it at the end. -/

def assocGet {α : Type} (l : List (String × α)) (k : String) : Option α :=
  match l with
  | [] => none
  | (k', v) :: rest => if k' = k then some v else assocGet rest k

/-- `d[k] = v` on a Python dict. -/
def assocSet {α : Type} (l : List (String × α)) (k : String) (v : α) :
    List (String × α) :=
  match l with
  | [] => [(k, v)]
  | (k', v') :: rest =>
    if k' = k then (k, v) :: rest else (k', v') :: assocSet rest k v

/-- `d.update(other)` on Python dicts. -/
def assocUpdate {α : Type} (l other : List (String × α)) : List (String × α) :=
  other.foldl (fun acc kv => assocSet acc kv.1 kv.2) l

/-- `dict(pairs)`: sequential insertion starting from the empty dict. -/
def buildDict (pairs : List (String × Value)) : Row :=
  pairs.foldl (fun acc kv => assocSet acc kv.1 kv.2) []

/-- `row.get(k)`: `None` when the key is absent. -/
def rowGet (r : Row) (k : String) : Value :=
  (assocGet r k).getD .null

/-- `row[k]`: raises `KeyError` when the key is absent. -/
def rowIndex (r : Row) (k : String) : Except String Value :=
  match assocGet r k with
  | some v => .ok v
  | none => .error ("KeyError: '" ++ k ++ "'")

/-- Effectful map over `Except`, by direct structural recursion (the
monadic loops of the source are modelled with this and `List.foldlM`). -/
def mapE {α β : Type} (f : α → Except String β) : List α → Except String (List β)
  | [] => .ok []
  | a :: as => do
    let b ← f a
    let bs ← mapE f as
    pure (b :: bs)

/-! ## Character-level string helpers

All text processing the engine does (`in`, `split`, `strip`, regexes)
is modelled by structurally recursive functions over `List Char`, so
that closed evaluations reduce inside the kernel. -/

/-- Python `\s` / `str.strip()` whitespace. -/
def isPyWs (c : Char) : Bool :=
  c = ' ' || c = '\t' || c = '\n' || c = '\x0d' || c = '\x0b' || c = '\x0c'

def trimChars (s : List Char) : List Char :=
  ((s.dropWhile isPyWs).reverse.dropWhile isPyWs).reverse

/-- Python `sub in s` (substring containment). -/
def containsSub (sub : List Char) : List Char → Bool
  | [] => sub.isPrefixOf []
  | c :: rest => sub.isPrefixOf (c :: rest) || containsSub sub rest

def splitOnSubGo (sep : List Char) : Nat → List Char → List Char →
    List (List Char)
  | 0, s, acc => [acc.reverse ++ s]
  | _ + 1, [], acc => [acc.reverse]
  | fuel + 1, c :: rest, acc =>
    if sep.isPrefixOf (c :: rest) then
      acc.reverse :: splitOnSubGo sep fuel (List.drop (sep.length - 1) rest) []
    else
      splitOnSubGo sep fuel rest (c :: acc)

/-- Python `s.split(sep)` for a non-empty separator. -/
def splitOnSub (sep s : List Char) : List (List Char) :=
  splitOnSubGo sep (s.length + 1) s []

/-- Python `s.split()`: split on whitespace runs, dropping empty pieces. -/
def splitWsGo : Nat → List Char → List Char → List (List Char)
  | 0, s, acc => if acc.isEmpty then [] else [acc.reverse ++ s]
  | _ + 1, [], acc => if acc.isEmpty then [] else [acc.reverse]
  | fuel + 1, c :: rest, acc =>
    if isPyWs c then
      if acc.isEmpty then splitWsGo fuel rest []
      else acc.reverse :: splitWsGo fuel rest []
    else splitWsGo fuel rest (c :: acc)

def splitWs (s : List Char) : List (List Char) :=
  splitWsGo (s.length + 1) s []

def toUpperChars (s : List Char) : List Char := s.map Char.toUpper

def strUpper (s : String) : String := String.mk (toUpperChars s.data)

/-- Count of leading `\s` characters. -/
def spacesCount : List Char → Nat
  | [] => 0
  | c :: rest => if isPyWs c then spacesCount rest + 1 else 0

def isDigitChar (c : Char) : Bool := '0' ≤ c && c ≤ '9'

def digitVal (c : Char) : Nat := c.toNat - '0'.toNat

def digitsToNat (ds : List Char) : Nat :=
  ds.foldl (fun acc c => acc * 10 + digitVal c) 0

/-- Python `int(s)`: optional surrounding whitespace, optional sign, one
or more digits (underscore grouping and other bases are not modelled;
nothing here uses them). -/
def parseIntPy (s : List Char) : Option Int :=
  let t := trimChars s
  let (sign, body) : Int × List Char :=
    match t with
    | '-' :: rest => (-1, rest)
    | '+' :: rest => (1, rest)
    | _ => (1, t)
  if body ≠ [] && body.all isDigitChar then
    some (sign * (digitsToNat body : Int))
  else none

/-- Python `float(s)` restricted to plain decimal literals
(`[+-]?digits[.digits]`, `[+-]?.digits`); exponents and `inf`/`nan`
are not modelled and never exercised by the engine's callers here. -/
def parseFloatPy (s : List Char) : Option PyNum :=
  let t := trimChars s
  let (sign, body) : Int × List Char :=
    match t with
    | '-' :: rest => (-1, rest)
    | '+' :: rest => (1, rest)
    | _ => (1, t)
  match splitOnSub ['.'] body with
  | [intPart] =>
    if intPart ≠ [] && intPart.all isDigitChar then
      some ⟨sign * (digitsToNat intPart : Int), 0⟩
    else none
  | [intPart, fracPart] =>
    if (intPart ++ fracPart) ≠ [] && intPart.all isDigitChar &&
        fracPart.all isDigitChar then
      some ⟨sign * (digitsToNat (intPart ++ fracPart) : Int), fracPart.length⟩
    else none
  | _ => none

/-! ## The WHERE-clause evaluator (`MiniPGEngine._evaluate_where`)

The source evaluates the clause text recursively: split on the literal
substring `" AND "` first, else on `" OR "`, else strip a leading
`"NOT "`, else match one comparison with the regex
`(.+?)\s*(=|<|>|<=|>=|!=)\s*(.+)`.  Note that in that regex alternation
`<=`/`>=` are unreachable: `<`/`>` are listed first and match first. -/

/-- The operator alternation `(=|<|>|<=|>=|!=)` tried at one position.
Ordered alternation: `=`, `<`, `>` shadow `<=`, `>=`; `!=` still
matches because no earlier branch starts with `!`. -/
def opAt : List Char → Option (String × List Char)
  | '=' :: r => some ("=", r)
  | '<' :: r => some ("<", r)
  | '>' :: r => some (">", r)
  | '!' :: '=' :: r => some ("!=", r)
  | _ => none

/-- `\s*(.+)` with backtracking over the space run: the largest number
of spaces is consumed such that at least one `.`-matchable (non-newline)
character remains; the capture runs to the next newline or the end. -/
def tailCapture : Nat → List Char → Option (List Char)
  | _, [] => none
  | 0, t => if t.headD ' ' = '\n' then none else some (t.takeWhile (· ≠ '\n'))
  | k + 1, t =>
    let t' := t.drop (k + 1)
    if t' ≠ [] && t'.headD ' ' ≠ '\n' then some (t'.takeWhile (· ≠ '\n'))
    else tailCapture k t

/-- `\s*(op)\s*(.+)` against `rest` (the text after the lazy group). -/
def tryCmpSplit (rest : List Char) : Option (String × List Char) := do
  let r2 := rest.drop (spacesCount rest)
  let (op, after) ← opAt r2
  let right ← tailCapture (min (spacesCount after) (after.length - 1)) after
  pure (op, right)

/-- `re.match(r'(.+?)\s*(=|<|>|<=|>=|!=)\s*(.+)', s)`: the lazy group
grows one character at a time (it cannot cross a newline) until the
remainder matches. -/
def matchCmpGo : Nat → List Char → List Char →
    Option (List Char × String × List Char)
  | 0, _, _ => none
  | _ + 1, _, [] => none
  | fuel + 1, leftRev, c :: rs =>
    if c = '\n' then none
    else
      match tryCmpSplit rs with
      | some (op, right) => some ((c :: leftRev).reverse, op, right)
      | none => matchCmpGo fuel (c :: leftRev) rs

def matchCmp (s : List Char) : Option (List Char × String × List Char) :=
  matchCmpGo (s.length + 1) [] s

/-- Python `all(...)` over an effectful generator: short circuits. -/
def exceptAll {α : Type} (f : α → Except String Bool) :
    List α → Except String Bool
  | [] => .ok true
  | x :: xs => do
    match (← f x) with
    | false => .ok false
    | true => exceptAll f xs

/-- Python `any(...)` over an effectful generator: short circuits. -/
def exceptAny {α : Type} (f : α → Except String Bool) :
    List α → Except String Bool
  | [] => .ok false
  | x :: xs => do
    match (← f x) with
    | true => .ok true
    | false => exceptAny f xs

/-- One comparison leaf: look the left side up with `row.get` (missing
keys yield `None`), interpret the right side as a quoted string literal,
else as a float, else as a raw string, then apply the operator. -/
def evalComparison (row : Row) (l : List Char) (op : String)
    (r : List Char) : Except String Bool :=
  let left_value := rowGet row (String.mk l)
  let right_value : Value :=
    if r.length ≥ 1 && r.headD ' ' = '\'' && r.getLastD ' ' = '\'' then
      .str (String.mk ((r.drop 1).dropLast))
    else
      match parseFloatPy r with
      | some n => .num n
      | none => .str (String.mk r)
  match op with
  | "=" => .ok (pyEq left_value right_value)
  | "<" => pyLt left_value right_value
  | ">" => pyLt right_value left_value
  | "<=" => pyLe left_value right_value
  | ">=" => pyLe right_value left_value
  | "!=" => .ok (!pyEq left_value right_value)
  | _ => .error ("ValueError: Unsupported operator: " ++ op)

/-- The recursive body of `_evaluate_where` (`evaluate_expression`),
with explicit fuel standing in for Python's call stack; every recursive
call shrinks the text by at least four characters, so the initial fuel
`length + 1` never runs out. -/
def evaluate_expression (row : Row) : Nat → List Char → Except String Bool
  | 0, _ => .error "RecursionError: maximum recursion depth exceeded"
  | fuel + 1, expr =>
    if containsSub " AND ".data expr then
      exceptAll (fun e => evaluate_expression row fuel (trimChars e))
        (splitOnSub " AND ".data expr)
    else if containsSub " OR ".data expr then
      exceptAny (fun e => evaluate_expression row fuel (trimChars e))
        (splitOnSub " OR ".data expr)
    else if "NOT ".data.isPrefixOf expr then
      (fun b => !b) <$> evaluate_expression row fuel (trimChars (expr.drop 4))
    else
      match matchCmp expr with
      | none => .error ("ValueError: Invalid expression: " ++ String.mk expr)
      | some (l, op, r) => evalComparison row l op r

/-- `MiniPGEngine._evaluate_where(row, where_clause)`. -/
def evaluate_where (row : Row) (whereClause : String) : Except String Bool :=
  evaluate_expression row (whereClause.data.length + 1) whereClause.data

/-! ## Engine state

`MiniPGEngine.__init__` materialises: the table catalog
(`global/mpg_tables.json`), the sequence catalog
(`global/mpg_sequences.json`), per-table storage files
(`json_db/<table>.jsonl`, modelled as their record lists), per-table
statistics documents (`mpg_stat/<table>.json`), the in-memory sequence
cache with its hit counter and flush threshold, and the background
worker pool (modelled as the ordered list of submitted calls, each call
being its positional argument list). -/

structure TableInfo where
  columns : List (String × String)
  sort : String
  deriving Repr, DecidableEq

/-- Iterating or membership-testing a Python dict sees its keys. -/
def TableInfo.colNames (t : TableInfo) : List String := t.columns.map Prod.fst

/-- A positional argument of a call submitted to the worker pool. -/
inductive PyArg where
  | strA (s : String)
  | intA (n : Int)
  | dictA (d : List (String × Int))
  deriving Repr, DecidableEq

structure ColumnStats where
  min : Value
  max : Value
  count : Nat
  mode : Value
  val_freq : List (Value × Nat)
  deriving Repr, DecidableEq

structure StatsDoc where
  row_count : Nat
  column_stats : List (String × ColumnStats)
  deriving Repr, DecidableEq

structure EngineState where
  dataDir : String
  tables : List (String × TableInfo)
  sequences : List (String × Int)
  files : List (String × List Row)
  stats : List (String × StatsDoc)
  seqCache : List (String × Int)
  seqCacheHits : Nat
  seqCacheFlushAfter : Nat
  pendingTasks : List (List PyArg)
  deriving Repr, DecidableEq

/-- A freshly initialised engine over an empty data directory
(`MiniPGEngine.__init__` with the default config). -/
def initialState (dataDir : String) : EngineState :=
  ⟨dataDir, [], [], [], [], [], 0, 10, []⟩

def seqFilePath (st : EngineState) : String :=
  st.dataDir ++ "/global/mpg_sequences.json"

/-! ## Sequence manager -/

/-- `MiniPGEngine._json_file_update_entries(file_path, data_dict)`
applied to a loaded JSON document: `data.update(data_dict)`. -/
def json_file_update_entries (doc data_dict : List (String × Int)) :
    List (String × Int) :=
  assocUpdate doc data_dict

/-- Interpretation of one submitted background call against the
persisted sequences document.  `_json_file_update_entries` takes two
positional arguments (after `self`); a call with any other shape, or
whose second argument is not a dict, raises inside the worker. -/
def runPendingTask (doc : List (String × Int)) :
    List PyArg → Except String (List (String × Int))
  | [_, .dictA d] => .ok (json_file_update_entries doc d)
  | [_, _] => .error "TypeError: update argument is not a mapping"
  | _ =>
    .error "TypeError: _json_file_update_entries() takes 3 positional arguments but 4 were given"

/-- `MiniPGEngine.get_sequence_nextval(sequence_name, flush_cache)`:
on a cache miss load the persisted counter (an unknown sequence returns
an error string, not an exception); increment the cached value and the
hit counter; at the flush threshold (or on request) submit a background
write and reset the hit counter. -/
def get_sequence_nextval (st : EngineState) (sequence_name : String)
    (flush_cache : Bool := false) : Value × EngineState :=
  let loaded : Option EngineState :=
    match assocGet st.seqCache sequence_name with
    | some _ => some st
    | none =>
      match assocGet st.sequences sequence_name with
      | some v =>
        some { st with seqCache := assocSet st.seqCache sequence_name v }
      | none => none
  match loaded with
  | none => (.str ("Error: Sequence '" ++ sequence_name ++ "' not found"), st)
  | some st1 =>
    let cur := (assocGet st1.seqCache sequence_name).getD 0 + 1
    let st2 := { st1 with
      seqCache := assocSet st1.seqCache sequence_name cur,
      seqCacheHits := st1.seqCacheHits + 1 }
    if st2.seqCacheFlushAfter ≤ st2.seqCacheHits || flush_cache then
      (.int cur,
       { st2 with
         pendingTasks := st2.pendingTasks ++
           [[.strA (seqFilePath st2), .strA sequence_name, .intA cur]],
         seqCacheHits := 0 })
    else (.int cur, st2)

/-- `MiniPGEngine.__exit__`: the synchronous shutdown flush of the whole
sequence cache (this call site passes the cache dict, so it is
well-formed, unlike the background submission). -/
def engineShutdownSeqDoc (st : EngineState) : List (String × Int) :=
  json_file_update_entries st.sequences st.seqCache

/-! ## Plans and results -/

inductive InsertValues where
  | recs (vs : List (List Value))
  | rawStr (s : String)
  deriving Repr, DecidableEq

structure InsertPlan where
  table : Option String
  columns : Option (List String)
  values : InsertValues
  deriving Repr, DecidableEq

structure CreateTablePlan where
  table : String
  columns : List (String × String)
  deriving Repr, DecidableEq

structure JoinInfo where
  type : String
  onCond : String
  deriving Repr, DecidableEq

structure SelectPlan where
  select : List String
  fromTable : Option String
  joins : List (String × JoinInfo)
  whereClause : Option String
  orderBy : List String
  groupBy : Option (List String)
  limit : Option Int
  deriving Repr, DecidableEq

/-- Python truthiness of the plan's `where` entry (`None` and the empty
string are falsy). -/
def whereTruthy : Option String → Bool
  | none => false
  | some s => s ≠ ""

/-- Python truthiness of the plan's `group_by` entry. -/
def groupByTruthy : Option (List String) → Bool
  | none => false
  | some l => !l.isEmpty

/-- Python truthiness of the plan's `limit` entry (`LIMIT 0` is falsy). -/
def limitTruthy : Option Int → Bool
  | none => false
  | some n => n ≠ 0

/-- The second component of `run_query`'s return tuple. -/
inductive Payload where
  | rows (rs : List Row)
  | raw (s : String)
  | names (ns : List String)
  | nothing
  deriving Repr, DecidableEq

/-- What a query execution method hands back to the caller: the
`(message, payload)` tuple, or a bare string on some error paths. -/
inductive RunResult where
  | tuple (msg : String) (payload : Payload)
  | bare (msg : String)
  deriving Repr, DecidableEq

/-! ## Statistics manager (`StatsManager.update_table_stats`) -/

def statsColsInit (cols : List String) : List (String × ColumnStats) :=
  cols.map (fun c => (c, ⟨.null, .null, 0, .null, []⟩))

def freqFind (freq : List (Value × Nat)) (v : Value) : Bool :=
  freq.any (fun kv => pyEq kv.1 v)

def freqInc (freq : List (Value × Nat)) (v : Value) : List (Value × Nat) :=
  if freqFind freq v then
    freq.map (fun kv => if pyEq kv.1 v then (kv.1, kv.2 + 1) else kv)
  else freq ++ [(v, 1)]

/-- One row's contribution to one column's statistics, in source order:
`min` (note the initial value is `None`, so `min(None, v)` raises on the
first row), then `max`, `count`, and the value-frequency histogram
(whose dict keying raises on unhashable values). -/
def statUpdateCol (cs : ColumnStats) (v : Value) : Except String ColumnStats := do
  let mn ← pyMin cs.min v
  let mx ← pyMax cs.max v
  if !v.hashable then
    .error "TypeError: unhashable type"
  else
    pure ⟨mn, mx, cs.count + 1, cs.mode, freqInc cs.val_freq v⟩

def statsRowFold (cols : List String)
    (cstats : List (String × ColumnStats)) (row : Row) :
    Except String (List (String × ColumnStats)) :=
  cols.foldlM (fun acc col => do
    let cur ← match assocGet acc col with
      | some c => pure c
      | none => .error ("KeyError: '" ++ col ++ "'")
    let v ← rowIndex row col
    let cur' ← statUpdateCol cur v
    pure (assocSet acc col cur')) cstats

/-- `StatsManager.update_table_stats(table_name)`: full scan computing
per-column min/max/count/histogram, then write the per-table statistics
document. -/
def update_table_stats (st : EngineState) (table_name : String) :
    Except String EngineState := do
  let info ← match assocGet st.tables table_name with
    | some i => pure i
    | none => .error ("KeyError: '" ++ table_name ++ "'")
  let cols := info.colNames
  let rows ← match assocGet st.files table_name with
    | some rs => pure rs
    | none => .error ("FileNotFoundError: " ++ table_name)
  let folded ← rows.foldlM
    (fun (acc : Nat × List (String × ColumnStats)) row => do
      let cs ← statsRowFold cols acc.2 row
      pure (acc.1 + 1, cs)) (0, statsColsInit cols)
  pure { st with stats := assocSet st.stats table_name ⟨folded.1, folded.2⟩ }

/-! ## INSERT and CREATE TABLE execution -/

/-- The body of `_execute_insert`'s write loop: one sequence fetch and
one appended line per value tuple.  The stored record is
`dict(zip(["id"] + columns, (record_id,) + record))`: `zip` truncates
to the shorter side, and the sequence result is used as the `id`
blindly, whatever it is. -/
def insertLoop (st : EngineState) (t : String) (cols : List String) :
    List (List Value) → List Row × EngineState
  | [] => ([], st)
  | rec :: rest =>
    let r := get_sequence_nextval st (t ++ "_id_seq") false
    let line := buildDict (List.zip ("id" :: cols) (r.1 :: rec))
    let next := insertLoop r.2 t cols rest
    (line :: next.1, next.2)

/-- `MiniPGEngine._execute_insert(insert_plan)`.  Error strings are
returned bare (the caller expects a tuple); a `None` columns list or a
string in the values slot raises once the first record is processed
(the partially updated engine state of that raising path is not
tracked, no claim depends on it). -/
def execute_insert (st : EngineState) (plan : InsertPlan) :
    Except String (RunResult × EngineState) :=
  let table_name := match plan.table with
    | some t => t
    | none => "None"
  match plan.table, assocGet st.tables table_name with
  | none, _ => .ok (.bare "Error: Table 'None' not found in catalog", st)
  | some _, none =>
    .ok (.bare ("Error: Table '" ++ table_name ++ "' not found in catalog"), st)
  | some _, some info =>
    if info.sort ≠ "id ASC" then
      .ok (.bare ("Error: Table '" ++ table_name ++ "' is not append-only"), st)
    else
      let file0 := (assocGet st.files table_name).getD []
      match plan.values, plan.columns with
      | .recs [], _ =>
        .ok (.tuple ("Inserted 0 records into table '" ++ table_name ++ "'")
               (.rows []),
             { st with files := assocSet st.files table_name file0 })
      | .recs records, some cols =>
        let written := insertLoop st table_name cols records
        .ok (.tuple ("Inserted " ++ toString records.length ++
               " records into table '" ++ table_name ++ "'") (.rows []),
             { written.2 with
               files := assocSet written.2.files table_name (file0 ++ written.1) })
      | .recs _, none =>
        .error "TypeError: can only concatenate list (not NoneType) to list"
      | .rawStr s, _ =>
        if s = "" then
          .ok (.tuple ("Inserted 0 records into table '" ++ table_name ++ "'")
                 (.rows []),
               { st with files := assocSet st.files table_name file0 })
        else .error "TypeError: can only concatenate tuple (not str) to tuple"

/-- `MiniPGEngine._execute_create_table(table_request)`: register the
schema with `sort = "id ASC"`, create the empty storage file, compute
initial statistics.  No sequence is registered anywhere.  The success
message is the source's literal, non-interpolated string. -/
def execute_create_table (st : EngineState) (plan : CreateTablePlan) :
    Except String (String × EngineState) :=
  match assocGet st.tables plan.table with
  | some _ => .ok ("Error: Table '" ++ plan.table ++ "' already exists", st)
  | none =>
    let st1 := { st with
      tables := assocSet st.tables plan.table ⟨plan.columns, "id ASC"⟩ }
    let st2 := { st1 with files := assocSet st1.files plan.table [] }
    match update_table_stats st2 plan.table with
    | .ok st3 => .ok ("Table '{table_name}' created successfully", st3)
    | .error e => .error e

/-! ## Table scan (`MiniPGEngine._file_scan`) -/

/-- The prefixed projection `{f"{p}.{col}": row[col] for col in columns}`
built as a dict (duplicate catalog columns collapse, later wins). -/
def prefixRow (info : TableInfo) (p : String) (row : Row) :
    Except String Row := do
  let pairs ← mapE (fun c => do
    let v ← rowIndex row c
    pure (p ++ "." ++ c, v)) info.colNames
  pure (buildDict pairs)

/-- Stable ascending insertion on decorated rows (Python's sort is
stable; on keys admitting a total order this computes the same list,
though the exact pairs compared - hence which of several possible
`TypeError`s fires first on incomparable keys - may differ from
timsort; no claim exercises that corner). -/
def insertAsc (xk : Value) (x : Row) :
    List (Value × Row) → Except String (List (Value × Row))
  | [] => .ok [(xk, x)]
  | (yk, y) :: rest => do
    if (← pyLt xk yk) then .ok ((xk, x) :: (yk, y) :: rest)
    else do
      let tl ← insertAsc xk x rest
      pure ((yk, y) :: tl)

/-- Stable descending insertion (Python `reverse=True` keeps equal keys
in original order). -/
def insertDesc (xk : Value) (x : Row) :
    List (Value × Row) → Except String (List (Value × Row))
  | [] => .ok [(xk, x)]
  | (yk, y) :: rest => do
    if (← pyLt yk xk) then .ok ((xk, x) :: (yk, y) :: rest)
    else do
      let tl ← insertDesc xk x rest
      pure ((yk, y) :: tl)

/-- `rows.sort(key=lambda x: x[sort_col], reverse=sort_dir == 'DESC')`.
Keys are extracted first (as `sort`'s decoration does), so a `KeyError`
beats any comparison error.  Note the source's conditional-expression
precedence slip: with a single-word `order_by` entry, `sort_dir` is
bound to a tuple, which simply fails the `== 'DESC'` test. -/
def fileSort (rows : List Row) (orderHead : String) :
    Except String (List Row) := do
  let sortArgs := splitOnSub [' '] orderHead.data
  let sort_col := String.mk (sortArgs.headD [])
  let desc : Bool := match sortArgs with
    | _ :: d :: _ => String.mk d == "DESC"
    | _ => false
  let keyed ← mapE (fun r => do
    let k ← rowIndex r sort_col
    pure (k, r)) rows
  let sorted ← keyed.foldlM
    (fun acc kr =>
      if desc then insertDesc kr.1 kr.2 acc else insertAsc kr.1 kr.2 acc) []
  pure (sorted.map Prod.snd)

/-- `MiniPGEngine._file_scan`.  The guard compares `order_by` (a list)
with `table_info['sort']` (a string), which is never equal, so any
truthy `order_by` takes the sorting branch. -/
def file_scan (rows : List Row) (info : TableInfo) (orderBy : List String)
    (colQual : Option String) : Except String (List Row) := do
  let ordered ← if orderBy.isEmpty then pure rows
    else fileSort rows (orderBy.headD "")
  match colQual with
  | some p => mapE (prefixRow info p) ordered
  | none => pure ordered

/-! ## SELECT execution (`MiniPGEngine._execute_select`) -/

/-- `MiniPGEngine.supported_functions` (its key set, in order). -/
def supported_functions : List String :=
  ["SUM(*)", "COUNT(*)", "AVG(*)", "MAX(*)", "MIN(*)"]

/-- Applying one aggregate's lambda to a list of row dicts, exactly as
the engine does.  Only `COUNT(*)` (i.e. `len`) is total: `sum` over
dicts raises unless the list is empty, `AVG` divides by zero on an
empty list and otherwise raises inside `sum`, and `max`/`min` raise on
an empty list, return the single row itself for a one-row list (no
comparison happens), and raise on dict-dict comparison otherwise. -/
def applyAgg (fname : String) (rows : List Row) : Except String Value :=
  match fname with
  | "COUNT(*)" => .ok (.int rows.length)
  | "SUM(*)" =>
    match rows with
    | [] => .ok (.int 0)
    | _ :: _ => .error "TypeError: unsupported operand type(s) for +: 'int' and 'dict'"
  | "AVG(*)" =>
    match rows with
    | [] => .error "ZeroDivisionError: division by zero"
    | _ :: _ => .error "TypeError: unsupported operand type(s) for +: 'int' and 'dict'"
  | "MAX(*)" =>
    match rows with
    | [] => .error "ValueError: max() arg is an empty sequence"
    | [r] => .ok (.pydict (ValueFields.ofRow r))
    | _ => .error "TypeError: '>' not supported between instances of 'dict' and 'dict'"
  | "MIN(*)" =>
    match rows with
    | [] => .error "ValueError: min() arg is an empty sequence"
    | [r] => .ok (.pydict (ValueFields.ofRow r))
    | _ => .error "TypeError: '<' not supported between instances of 'dict' and 'dict'"
  | _ => .error ("KeyError: '" ++ fname ++ "'")

/-- `_execute_select` distinguishes raised exceptions (left) from early
`return "Error: ..."` strings (right). -/
abbrev SelM (α : Type) := Except (String ⊕ String) α

def selRaise {α : Type} (e : String) : SelM α := .error (.inl e)

def selErrStr {α : Type} (s : String) : SelM α := .error (.inr s)

def selLift {α : Type} : Except String α → SelM α
  | .ok a => .ok a
  | .error e => .error (.inl e)

/-- The column-validation loop (source lines 183-195): qualified names
are checked against their table (a stray qualifier raises `KeyError`,
more than one dot raises `ValueError`), unqualified aggregate names set
`is_agg`, and any other unqualified name must be a column of every
referenced table (the loop returns on the first table lacking it). -/
def validateCols (tableMds : List (String × TableInfo)) :
    List String → Bool → SelM Bool
  | [], isAgg => pure isAgg
  | col :: rest, isAgg =>
    if containsSub ['.'] col.data then
      match splitOnSub ['.'] col.data with
      | [t, c] =>
        let table := String.mk t
        let col_name := String.mk c
        match assocGet tableMds table with
        | none => selRaise ("KeyError: '" ++ table ++ "'")
        | some info =>
          if col_name ≠ "*" && !info.colNames.contains col_name &&
              !supported_functions.contains col_name then
            selErrStr ("Error: Column '" ++ col_name ++ "' not found in table '"
              ++ table ++ "'")
          else validateCols tableMds rest isAgg
      | _ => selRaise "ValueError: too many values to unpack (expected 2)"
    else if supported_functions.contains col then
      validateCols tableMds rest true
    else if tableMds.any (fun ti =>
        col ≠ "*" && !ti.2.colNames.contains col &&
        !supported_functions.contains col) then
      selErrStr ("Error: Column '" ++ col ++ "' not found in any table")
    else validateCols tableMds rest isAgg

/-- `join_info['on'].split()[0]` and `[2]`. -/
def joinOnParts (onCond : String) : Except String (String × String) :=
  let ws := splitWs onCond.data
  match ws.get? 0, ws.get? 2 with
  | some l, some r => .ok (String.mk l, String.mk r)
  | _, _ => .error "IndexError: list index out of range"

/-- The inner join loop for one base row: probe every joined row and
merge matches into the row (`row.update(join_row)`); the probe re-reads
the possibly already-updated row, as the in-place source does. -/
def joinRowFold (l r : String) (jrows : List Row) (row : Row) :
    Except String Row :=
  jrows.foldlM (fun acc jrow => do
    let v ← rowIndex acc l
    let w ← rowIndex jrow r
    pure (if pyEq v w then assocUpdate acc jrow else acc)) row

/-! Grouping -/

/-- Tuple equality of two group keys (elementwise Python `==`). -/
def pyEqKeys (a b : List Value) : Bool :=
  a.length == b.length && (a.zip b).all (fun vw => pyEq vw.1 vw.2)

def bucketsAdd (buckets : List (List Value × List Row)) (k : List Value)
    (row : Row) : List (List Value × List Row) :=
  if buckets.any (fun b => pyEqKeys b.1 k) then
    buckets.map (fun b => if pyEqKeys b.1 k then (b.1, b.2 ++ [row]) else b)
  else buckets ++ [(k, [row])]

/-- Partition rows into buckets keyed by the tuple of group-by column
values, in first-seen order; missing group columns raise `KeyError`,
unhashable key components raise `TypeError` at the dict probe. -/
def groupRows (gcols : List String) (rows : List Row) :
    Except String (List (List Value × List Row)) :=
  rows.foldlM (fun buckets row => do
    let k ← mapE (rowIndex row) gcols
    if !k.all Value.hashable then
      .error "TypeError: unhashable type"
    else
      pure (bucketsAdd buckets k row)) []

def filterWhere (w : String) (rows : List Row) :
    Except String (List Row) :=
  rows.foldlM (fun acc row => do
    match (← evaluate_where row w) with
    | true => pure (acc ++ [row])
    | false => pure acc) []

/-- One group's emitted record (source lines 237-254).  `row` starts as
`{}`, but when a WHERE clause is present the filtering loop rebinds it
to the group's last (pre-filter) row; group keys and then the selected
columns are assigned into it; an empty filtered group yields nothing.
(The source mutates that shared dict in place; this snapshot model
coincides with it on every path not storing a row-valued `MAX(*)` or
`MIN(*)` aggregate, which is the scope the claims exercise.) -/
def buildGroupRecord (selectCols gcols : List String)
    (whereC : Option String) (key : List Value) (group_rows : List Row) :
    Except String (Option Row) := do
  let startRow : Row :=
    if whereTruthy whereC then group_rows.getLastD [] else []
  let retained ←
    if whereTruthy whereC then filterWhere (whereC.getD "") group_rows
    else pure group_rows
  if retained.length = 0 then
    pure none
  else do
    let withKeys := (gcols.zip key).foldl
      (fun acc kv => assocSet acc kv.1 kv.2) startRow
    let recd ← selectCols.foldlM (fun acc col => do
      if supported_functions.contains col then
        let v ← applyAgg col retained
        pure (assocSet acc col v)
      else do
        let v ← rowIndex (retained.headD []) col
        pure (assocSet acc col v)) withKeys
    pure (some recd)

/-- The whole grouping stage: replaces the scanned rows with one record
per group surviving the in-group WHERE filter. -/
def groupStage (selectCols gcols : List String) (whereC : Option String)
    (base : List Row) : Except String (List Row) := do
  let buckets ← groupRows gcols base
  buckets.foldlM (fun acc b => do
    match (← buildGroupRecord selectCols gcols whereC b.1 b.2) with
    | some r => pure (acc ++ [r])
    | none => pure acc) []

/-! Projection, row filter and limit -/

/-- One selected column of the projection stage (the body of the
`row_record` loop, source lines 272-281): `table.*` expands to every
key with that prefix, `table.col` reads the prefixed key, a bare name
reads the row directly. -/
def projStep (row : Row) (recd : Row) (col : String) : Except String Row := do
  if containsSub ['.'] col.data then
    match splitOnSub ['.'] col.data with
    | [t, c] =>
      let table := String.mk t
      if String.mk c = "*" then
        pure (assocUpdate recd
          (row.filter (fun kv => (table ++ ".").data.isPrefixOf kv.1.data)))
      else do
        let v ← rowIndex row (table ++ "." ++ String.mk c)
        pure (assocSet recd col v)
    | _ => .error "ValueError: too many values to unpack (expected 2)"
  else do
    let v ← rowIndex row col
    pure (assocSet recd col v)

/-- The projection of one row onto the selected columns (source lines
271-281). -/
def projectRowRecord (row : Row) : List String → Except String Row :=
  fun cols => cols.foldlM (projStep row) []

/-- The final per-row loop (source lines 262-284): WHERE filtering
(skipped when grouped), projection, and the early-exit LIMIT check that
runs after each appended record. -/
def emitLoop (selectCols : List String) (whereC : Option String)
    (gby : Option (List String)) (lim : Option Int) :
    List Row → List Row → Except String (List Row)
  | results, [] => .ok results
  | results, row :: rest => do
    let keep ←
      if whereTruthy whereC && !groupByTruthy gby then
        evaluate_where row (whereC.getD "")
      else pure true
    match keep with
    | false => emitLoop selectCols whereC gby lim results rest
    | true => do
      let item ← if selectCols = ["*"] then pure row
        else projectRowRecord row selectCols
      let results' := results ++ [item]
      if limitTruthy lim && (lim.getD 0) ≤ (results'.length : Int) then
        .ok results'
      else emitLoop selectCols whereC gby lim results' rest

/-- The ungrouped-aggregate branch (source lines 258-261): each selected
function applied to the whole, unfiltered scan result. -/
def aggNoGroup (selectCols : List String) (base : List Row) :
    Except String (List Row) :=
  mapE (fun f => do
    let v ← applyAgg f base
    pure [(f, v)]) selectCols

/-- The result of `_execute_select`: a row list, or the early-returned
error string (which the source hands back in place of the list). -/
inductive SelectOut where
  | errS (s : String)
  | rows (rs : List Row)
  deriving Repr, DecidableEq

def execute_select_core (st : EngineState) (plan : SelectPlan) :
    SelM (List Row) := do
  let fromName := match plan.fromTable with
    | some t => t
    | none => "None"
  let names := fromName :: plan.joins.map Prod.fst
  let tableMds ← names.foldlM (fun acc t =>
      match assocGet st.tables t with
      | none => selErrStr ("Error: Table '" ++ t ++ "' not found in catalog")
      | some i => pure (assocSet acc t i)) ([] : List (String × TableInfo))
  let isAgg ← validateCols tableMds plan.select false
  if isAgg && !groupByTruthy plan.groupBy && plan.select.length > 1 then
    selErrStr "Error: Aggregate functions require a GROUP BY clause"
  else do
    let fromInfo := (assocGet tableMds fromName).getD ⟨[], ""⟩
    let colQual := if plan.joins.length > 0 then some fromName else none
    let rawRows ← match assocGet st.files fromName with
      | some rs => pure rs
      | none => selRaise ("FileNotFoundError: " ++ fromName)
    let base0 ← selLift (file_scan rawRows fromInfo plan.orderBy colQual)
    let base1 ← plan.joins.foldlM (fun base jt => do
        match assocGet st.tables jt.1 with
        | none =>
          selErrStr ("Error: Join Table '" ++ jt.1 ++ "' not found in catalog")
        | some jinfo => do
          let jraw ← match assocGet st.files jt.1 with
            | some rs => pure rs
            | none => selRaise ("FileNotFoundError: " ++ jt.1)
          let jrows ← selLift (file_scan jraw jinfo plan.orderBy (some jt.1))
          let lr ← selLift (joinOnParts jt.2.onCond)
          selLift (mapE (joinRowFold lr.1 lr.2 jrows) base)) base0
    let base2 ←
      if groupByTruthy plan.groupBy then
        selLift (groupStage plan.select (plan.groupBy.getD [])
          plan.whereClause base1)
      else pure base1
    if isAgg && !groupByTruthy plan.groupBy then
      selLift (aggNoGroup plan.select base2)
    else
      selLift (emitLoop plan.select plan.whereClause plan.groupBy plan.limit
        [] base2)

/-- `MiniPGEngine._execute_select(execution_plan)`: early error-string
returns are ordinary return values; exceptions propagate. -/
def execute_select (st : EngineState) (plan : SelectPlan) :
    Except String SelectOut :=
  match execute_select_core st plan with
  | .ok rs => .ok (.rows rs)
  | .error (.inr s) => .ok (.errS s)
  | .error (.inl e) => .error e

/-! ## CREATE TABLE planning (`QueryPlanner._generate_create_table_plan`)

Two `re.search` calls over the raw statement text:
`r'CREATE TABLE (.+?)\(' ` (case-insensitive, lazy group) and
`r'\((.+)\)'` (greedy group). -/

/-- Case-insensitive literal match at the head of the text. -/
def matchesAtCI : List Char → List Char → Bool
  | [], _ => true
  | _ :: _, [] => false
  | p :: ps, c :: cs => (p.toUpper == c.toUpper) && matchesAtCI ps cs

def firstIdxOf (ch : Char) : List Char → Option Nat
  | [] => none
  | c :: rest =>
    if c = ch then some 0 else (firstIdxOf ch rest).map (· + 1)

def lastIdxOf (ch : Char) (s : List Char) : Option Nat :=
  (firstIdxOf ch s.reverse).map (fun j => s.length - 1 - j)

/-- `(.+?)\(` against the text following `CREATE TABLE `: the shortest
nonempty newline-free group followed by `(`, i.e. everything up to the
first `(` at index ≥ 1. -/
def createNameAt (rest : List Char) : Option (List Char) :=
  match firstIdxOf '(' (rest.drop 1) with
  | some k =>
    let grp := rest.take (k + 1)
    if grp.contains '\n' then none else some grp
  | none => none

/-- `re.search(r'CREATE TABLE (.+?)\(', query, re.IGNORECASE)`: try each
start position left to right. -/
def searchCreateName : Nat → List Char → Option (List Char)
  | 0, _ => none
  | _ + 1, [] => none
  | fuel + 1, c :: rest =>
    if matchesAtCI "CREATE TABLE ".data (c :: rest) then
      match createNameAt (List.drop 13 (c :: rest)) with
      | some g => some g
      | none => searchCreateName fuel rest
    else searchCreateName fuel rest

/-- `(.+)\)` after a `(`: the greedy newline-free group up to the last
`)`, which must leave the group nonempty. -/
def parenContentAt (rest : List Char) : Option (List Char) :=
  let seg := rest.takeWhile (· ≠ '\n')
  match lastIdxOf ')' seg with
  | some k => if 1 ≤ k then some (seg.take k) else none
  | none => none

/-- `re.search(r'\((.+)\)', query)`. -/
def searchParenContent : Nat → List Char → Option (List Char)
  | 0, _ => none
  | _ + 1, [] => none
  | fuel + 1, c :: rest =>
    if c = '(' then
      match parenContentAt rest with
      | some g => some g
      | none => searchParenContent fuel rest
    else searchParenContent fuel rest

/-- `{c[0]: c[1] for c in ...}`: dict build, later duplicates win. -/
def buildStrDict (pairs : List (String × String)) : List (String × String) :=
  pairs.foldl (fun acc kv => assocSet acc kv.1 kv.2) []

/-- `QueryPlanner._generate_create_table_plan(query)`.  The column list
is split on `", "`; each entry is split on every single space and only
its first two pieces are kept (`c[0]`, `c[1]`); an entry without a
space raises `IndexError`. -/
def generate_create_table_plan (query : String) :
    Except String CreateTablePlan := do
  let tname ← match searchCreateName (query.data.length + 1) query.data with
    | some g => pure (String.mk (trimChars g))
    | none => .error "Error: Invalid CREATE TABLE query: Table name not found"
  let content ← match searchParenContent (query.data.length + 1) query.data with
    | some g => pure g
    | none => .error "Error: Invalid CREATE TABLE query: Columns not found"
  let entries := splitOnSub ", ".data (trimChars content)
  let pairs ← mapE (fun col =>
    match splitOnSub [' '] col with
    | c0 :: c1 :: _ => pure (String.mk c0, String.mk c1)
    | _ => Except.error "IndexError: list index out of range") entries
  pure ⟨tname, buildStrDict pairs⟩

/-! ## INSERT planning (`QueryPlanner._generate_insert_plan` and
`_values_to_records`) -/

def ValueList.ofList : List Value → ValueList
  | [] => .nil
  | v :: rest => .cons v (ValueList.ofList rest)

/-- `re.compile(r"\(([^)]+)\)").findall(values_str)`. -/
def findParenGroups : Nat → List Char → List (List Char)
  | 0, _ => []
  | _ + 1, [] => []
  | fuel + 1, c :: rest =>
    if c = '(' then
      let grp := rest.takeWhile (· ≠ ')')
      if grp ≠ [] && rest.drop grp.length ≠ [] then
        grp :: findParenGroups fuel (rest.drop (grp.length + 1))
      else findParenGroups fuel rest
    else findParenGroups fuel rest

/-- `re.compile(r'\"([^\"]*)\"').findall(val)` for the `text[]` cast. -/
def findQuoteGroups : Nat → List Char → List String
  | 0, _ => []
  | _ + 1, [] => []
  | fuel + 1, c :: rest =>
    if c = '"' then
      let grp := rest.takeWhile (· ≠ '"')
      if rest.drop grp.length ≠ [] then
        String.mk grp :: findQuoteGroups fuel (rest.drop (grp.length + 1))
      else findQuoteGroups fuel rest
    else findQuoteGroups fuel rest

def lowerStr (s : List Char) : String := String.mk (s.map Char.toLower)

/-- The cast ladder of `_values_to_records`: an explicit `::type` cast
dispatches on the type name, any other (or no) cast falls through to
the int-then-float-then-string coercion. -/
def convertVal (val : List Char) (cast : Option (List Char)) :
    Except String Value :=
  let deflt : Except String Value :=
    match parseIntPy val with
    | some n => .ok (.int n)
    | none =>
      match parseFloatPy val with
      | some q => .ok (.num q)
      | none => .ok (.str (String.mk val))
  match cast with
  | some c =>
    let cs := String.mk c
    if cs = "text" || cs = "varchar" || cs = "char" then
      .ok (.str (String.mk val))
    else if cs = "int" || cs = "integer" || cs = "bigint" || cs = "smallint" then
      match parseIntPy val with
      | some n => .ok (.int n)
      | none => .error "ValueError: invalid literal for int() with base 10"
    else if cs = "float" || cs = "double precision" || cs = "real" then
      match parseFloatPy val with
      | some q => .ok (.num q)
      | none => .error "ValueError: could not convert string to float"
    else if cs = "boolean" then
      .ok (.bool (lowerStr val == "true"))
    else if cs = "text[]" then
      .ok (.pylist (ValueList.ofList
        ((findQuoteGroups (val.length + 1) val).map Value.str)))
    else deflt
  | none => deflt

/-- One comma-separated field: strip, split off a `::cast` suffix
(two or more `::` raise at the unpacking), strip surrounding single
quotes, convert. -/
def parseOneVal (raw : List Char) : Except String Value := do
  let val0 := trimChars raw
  let vc ← match splitOnSub "::".data val0 with
    | [v] => pure (v, (none : Option (List Char)))
    | [v, c] => pure (trimChars v, some (trimChars c))
    | _ => Except.error "ValueError: too many values to unpack (expected 2)"
  let val1 := vc.1
  let val2 :=
    if val1.length ≥ 1 && val1.headD ' ' = '\'' && val1.getLastD ' ' = '\'' then
      (val1.drop 1).dropLast
    else val1
  convertVal val2 vc.2

/-- `QueryPlanner._values_to_records(values_str)`. -/
def values_to_records (values_str : List Char) :
    Except String (List (List Value)) :=
  mapE (fun grp => mapE parseOneVal (splitOnSub [','] grp))
    (findParenGroups (values_str.length + 1) values_str)

/-! ## The token stream and the SELECT / INSERT plan compilers -/

/-- The typed tokens the external tokenizer hands the planner: keyword,
DML keyword, identifier, identifier list, WHERE clause (its raw text,
`"WHERE ..."`), function call, parenthesized value list (raw text,
`"VALUES ..."`), comparison, integer literal, wildcard, whitespace. -/
inductive Token where
  | kw (v : String)
  | dml (v : String)
  | ident (s : String)
  | identList (items : List String)
  | whereTok (raw : String)
  | funcTok (s : String)
  | valuesTok (raw : String)
  | cmp (s : String)
  | intLit (v : Int)
  | wild (s : String)
  | ws
  deriving Repr, DecidableEq

inductive PState where
  | start | selectSt | fromSt | joinOrWhere | joinSt | onSt
  | whereSt | orderBySt | groupBySt | limitSt
  deriving Repr, DecidableEq

def emptySelectPlan : SelectPlan :=
  ⟨[], none, [], none, [], none, none⟩

structure FsmAcc where
  state : PState
  plan : SelectPlan
  joinType : Option String
  joinTable : Option String
  deriving Repr, DecidableEq

def joinKeywords : List String :=
  ["JOIN", "INNER JOIN", "LEFT JOIN", "RIGHT JOIN", "FULL JOIN"]

/-- One step of the `_generate_select_plan` finite state machine
(source lines 380-445), transcribed branch for branch. -/
def fsmStep (acc : FsmAcc) (token : Token) : FsmAcc :=
  match token with
  | .ws => acc
  | _ =>
    match acc.state with
    | .start =>
      match token with
      | .dml v => if strUpper v = "SELECT" then { acc with state := .selectSt } else acc
      | _ => acc
    | .selectSt =>
      match token with
      | .kw v =>
        if strUpper v = "FROM" then { acc with state := .fromSt } else acc
      | .identList items =>
        { acc with plan := { acc.plan with select := items } }
      | .ident s =>
        { acc with plan := { acc.plan with select := acc.plan.select ++ [s] } }
      | .wild s =>
        { acc with plan := { acc.plan with select := acc.plan.select ++ [s] } }
      | .funcTok s =>
        { acc with plan := { acc.plan with select := acc.plan.select ++ [s] } }
      | _ => acc
    | .fromSt =>
      match token with
      | .kw v =>
        { acc with state := .joinOrWhere, plan := { acc.plan with fromTable := some v } }
      | .ident s =>
        { acc with state := .joinOrWhere, plan := { acc.plan with fromTable := some s } }
      | _ => acc
    | .joinOrWhere =>
      match token with
      | .kw v =>
        if joinKeywords.contains (strUpper v) then
          { acc with state := .joinSt, joinType := some (strUpper v) }
        else if strUpper v = "ORDER BY" then { acc with state := .orderBySt }
        else if strUpper v = "GROUP BY" then { acc with state := .groupBySt }
        else if strUpper v = "LIMIT" then { acc with state := .limitSt }
        else acc
      | .whereTok raw =>
        { acc with plan := { acc.plan with
            whereClause := some (String.mk (trimChars (raw.data.drop 6))) } }
      | _ => acc
    | .joinSt =>
      match token with
      | .ident s => { acc with state := .onSt, joinTable := some s }
      | _ => acc
    | .onSt =>
      match token with
      | .cmp c =>
        { acc with
          state := .joinOrWhere,
          plan := { acc.plan with
            joins := assocSet acc.plan.joins (acc.joinTable.getD "None")
              ⟨acc.joinType.getD "None", c⟩ },
          joinType := none, joinTable := none }
      | _ => acc
    | .whereSt =>
      match token with
      | .whereTok raw =>
        { acc with
          state := .joinOrWhere,
          plan := { acc.plan with
            whereClause := some (String.mk (trimChars (raw.data.drop 6))) } }
      | _ => acc
    | .orderBySt =>
      let acc' :=
        match token with
        | .identList items =>
          { acc with plan := { acc.plan with orderBy := items } }
        | .ident s =>
          { acc with plan := { acc.plan with
              orderBy :=
                if acc.plan.orderBy.isEmpty then [s]
                else acc.plan.orderBy ++ [s] } }
        | _ => acc
      { acc' with state := .joinOrWhere }
    | .groupBySt =>
      let acc' :=
        match token with
        | .identList items =>
          { acc with plan := { acc.plan with groupBy := some items } }
        | .kw v =>
          { acc with plan := { acc.plan with
              groupBy := some (if groupByTruthy acc.plan.groupBy then
                acc.plan.groupBy.getD [] ++ [v] else [v]) } }
        | .ident s =>
          { acc with plan := { acc.plan with
              groupBy := some (if groupByTruthy acc.plan.groupBy then
                acc.plan.groupBy.getD [] ++ [s] else [s]) } }
        | _ => acc
      { acc' with state := .joinOrWhere }
    | .limitSt =>
      let acc' :=
        match token with
        | .intLit n =>
          { acc with plan := { acc.plan with limit := some n } }
        | _ => acc
      { acc' with state := .joinOrWhere }

/-- `QueryPlanner._generate_select_plan(parsed_tokens)`. -/
def generate_select_plan (tokens : List Token) : SelectPlan :=
  (tokens.foldl fsmStep ⟨.start, emptySelectPlan, none, none⟩).plan

/-- The insert-plan accumulator: the `cur_keyword` cursor plus the plan
being filled. -/
structure InsAcc where
  curKw : Option String
  plan : InsertPlan
  deriving Repr, DecidableEq

/-- One step of `_generate_insert_plan`'s token loop (source lines
477-500).  A Function token after INTO is split on its first `(` into
the table name and the column list (dropping the final `)`); the
Values token's raw text (after `"VALUES"`) goes through
`_values_to_records`, which can raise; an Identifier is assigned to
whatever slot `cur_keyword` names. -/
def insStep (acc : InsAcc) (token : Token) : Except String InsAcc :=
  match token with
  | .dml v =>
    if strUpper v = "INSERT" then pure { acc with curKw := some "table" }
    else pure acc
  | .kw v =>
    if strUpper v = "INTO" then pure { acc with curKw := some "table" }
    else if strUpper v = "VALUES" then pure { acc with curKw := some "values" }
    else pure acc
  | .funcTok s =>
    if acc.curKw = some "table" then
      match firstIdxOf '(' s.data with
      | some i =>
        let table := s.data.take i
        let cols := (s.data.drop (i + 1)).dropLast
        pure { acc with plan := { acc.plan with
          table := some (String.mk (trimChars table)),
          columns := some ((splitOnSub [','] cols).map
            (fun c => String.mk (trimChars c))) } }
      | none => .error "ValueError: not enough values to unpack (expected 2, got 1)"
    else pure acc
  | .valuesTok raw => do
    let recs ← values_to_records (trimChars (raw.data.drop 6))
    pure { acc with plan := { acc.plan with values := .recs recs } }
  | .ident s =>
    match acc.curKw with
    | some "table" => pure { acc with plan := { acc.plan with table := some s } }
    | some "values" => pure { acc with plan := { acc.plan with values := .rawStr s } }
    | _ => pure acc
  | .identList _ => pure acc
  | _ => pure acc

/-- `QueryPlanner._generate_insert_plan(parsed_tokens)`. -/
def generate_insert_plan (tokens : List Token) : Except String InsertPlan := do
  let acc ← tokens.foldlM insStep ⟨none, ⟨none, none, .recs []⟩⟩
  pure acc.plan

/-! ## The tokenizer boundary and `run_query`

`run_query` hands the raw text to the external `sqlparse` tokenizer
(out of scope of the source tree; the spec fixes only its interface).
Both functions below are therefore modelled from the spec. -/

/-- Modelled from the spec: the external tokenizer's statement
classification (`sqlparse` `get_type`), missing from the source tree.
Per the spec's tokenizer input contract, it reports the first command
token's kind: `SELECT`/`INSERT`/`CREATE` (or another SQL command name),
and `UNKNOWN` for anything else - in particular `SHOW TABLES` is not
one of the three supported kinds. -/
def specGetType (q : String) : String :=
  match splitWs q.data with
  | [] => "UNKNOWN"
  | w :: _ =>
    let u := String.mk (toUpperChars w)
    if u = "SELECT" || u = "INSERT" || u = "CREATE" || u = "DELETE" ||
        u = "UPDATE" || u = "DROP" || u = "ALTER" || u = "TRUNCATE" then u
    else "UNKNOWN"

def joinWords (sep : List Char) : List (List Char) → List Char
  | [] => []
  | [w] => w
  | w :: rest => w ++ sep ++ joinWords sep rest

/-- Modelled from the spec: the external tokenizer's token stream for
the simple single-space statements exercised here.  Words become DML /
keyword / wildcard / integer / function / identifier tokens; a `WHERE`
word groups the remainder of the statement into one where-clause token,
as the external tokenizer does for statements with no trailing
clauses. -/
def specTokenizeWords : Nat → List (List Char) → List Token
  | 0, _ => []
  | _ + 1, [] => []
  | fuel + 1, w :: rest =>
    let uw := String.mk (toUpperChars w)
    if uw = "SELECT" || uw = "INSERT" then
      Token.dml (String.mk w) :: specTokenizeWords fuel rest
    else if uw = "WHERE" then
      [Token.whereTok (String.mk (joinWords [' '] (w :: rest)))]
    else if uw = "VALUES" then
      [Token.valuesTok (String.mk (joinWords [' '] (w :: rest)))]
    else if uw = "FROM" || uw = "INTO" || uw = "LIMIT" ||
        uw = "JOIN" then
      Token.kw (String.mk w) :: specTokenizeWords fuel rest
    else if w = ['*'] then
      Token.wild "*" :: specTokenizeWords fuel rest
    else if w ≠ [] && w.all isDigitChar then
      Token.intLit (digitsToNat w : Int) :: specTokenizeWords fuel rest
    else if w.contains '(' then
      Token.funcTok (String.mk w) :: specTokenizeWords fuel rest
    else
      Token.ident (String.mk w) :: specTokenizeWords fuel rest

def specTokenize (q : String) : List Token :=
  specTokenizeWords (q.data.length + 1) (splitWs q.data)

def selOutLen : SelectOut → Nat
  | .rows rs => rs.length
  | .errS s => s.length

def selOutPayload : SelectOut → Payload
  | .rows rs => .rows rs
  | .errS s => .raw s

/-- `MiniPGEngine.run_query(query)`: dispatch on the tokenizer's
statement classification.  A SELECT result (row list or early error
string alike) is wrapped in `"Query OK, {len} rows returned"`; CREATE
pairs its message with `None`; INSERT returns whatever
`_execute_insert` returned; the literal query `SHOW TABLES` reads the
catalog; anything else is the unsupported-statement status.  Planner
and execution exceptions propagate to the caller. -/
def run_query (st : EngineState) (query : String) :
    Except String (RunResult × EngineState) :=
  let query_type := specGetType query
  if query_type = "SELECT" then
    let select_plan := generate_select_plan (specTokenize query)
    match execute_select st select_plan with
    | .error e => .error e
    | .ok out =>
      .ok (.tuple ("Query OK, " ++ toString (selOutLen out) ++ " rows returned")
             (selOutPayload out), st)
  else if query_type = "CREATE" then
    match generate_create_table_plan query with
    | .error e => .error e
    | .ok plan =>
      match execute_create_table st plan with
      | .error e => .error e
      | .ok msgSt => .ok (.tuple msgSt.1 Payload.nothing, msgSt.2)
  else if query_type = "INSERT" then
    match generate_insert_plan (specTokenize query) with
    | .error e => .error e
    | .ok plan => execute_insert st plan
  else if query = "SHOW TABLES" then
    .ok (.tuple ("Query OK, " ++ toString st.tables.length ++ " tables found")
           (.names (st.tables.map Prod.fst)), st)
  else
    .ok (.tuple ("Error: Unsupported query type: " ++ query_type)
           Payload.nothing, st)

/-! ## Infrastructure for the claim theorems -/

instance {ε α : Type} [DecidableEq ε] [DecidableEq α] :
    DecidableEq (Except ε α) := fun a b =>
  match a, b with
  | .ok x, .ok y =>
    if h : x = y then .isTrue (congrArg Except.ok h)
    else .isFalse (fun hc => h (Except.ok.inj hc))
  | .error x, .error y =>
    if h : x = y then .isTrue (congrArg Except.error h)
    else .isFalse (fun hc => h (Except.error.inj hc))
  | .ok _, .error _ => .isFalse (fun hc => Except.noConfusion hc)
  | .error _, .ok _ => .isFalse (fun hc => Except.noConfusion hc)

@[simp] theorem exceptBind_ok {ε α β : Type} (a : α) (f : α → Except ε β) :
    (Except.ok a >>= f) = f a := rfl

@[simp] theorem exceptBind_error {ε α β : Type} (e : ε)
    (f : α → Except ε β) :
    ((Except.error e : Except ε α) >>= f) = .error e := rfl

@[simp] theorem exceptMap_ok {ε α β : Type} (g : α → β) (a : α) :
    (g <$> (Except.ok a : Except ε α)) = .ok (g a) := rfl

@[simp] theorem exceptMap_error {ε α β : Type} (g : α → β) (e : ε) :
    (g <$> (Except.error e : Except ε α)) = .error e := rfl

@[simp] theorem exceptPure {ε α : Type} (a : α) :
    (pure a : Except ε α) = .ok a := rfl

@[simp] theorem exceptBind_pureArg {ε α β : Type} (a : α)
    (f : α → Except ε β) : ((pure a : Except ε α) >>= f) = f a := rfl

@[simp] theorem exceptMapF_ok {ε α β : Type} (g : α → β) (a : α) :
    Except.map g (Except.ok a : Except ε α) = .ok (g a) := rfl

@[simp] theorem exceptMapF_error {ε α β : Type} (g : α → β) (e : ε) :
    Except.map g (Except.error e : Except ε α) = .error e := rfl

@[simp] theorem selLift_ok {α : Type} (a : α) :
    selLift (.ok a) = (.ok a : SelM α) := rfl

@[simp] theorem selLift_error {α : Type} (e : String) :
    selLift (.error e) = (.error (.inl e) : SelM α) := rfl

theorem foldlM_error_head {s α : Type} (f : s → α → Except String s)
    (init : s) (a : α) (as : List α) (e : String) (h : f init a = .error e) :
    List.foldlM f init (a :: as) = .error e := by
  simp [List.foldlM, h]

/-- A `mapE` succeeds pointwise. -/
theorem mapE_ok_of_forall {α β : Type} {f : α → Except String β}
    {g : α → β} : ∀ {l : List α}, (∀ a ∈ l, f a = .ok (g a)) →
    mapE f l = .ok (l.map g)
  | [], _ => rfl
  | a :: rest, h => by
    have ha : f a = .ok (g a) := h a (by simp)
    have hr : mapE f rest = .ok (rest.map g) :=
      mapE_ok_of_forall (fun x hx => h x (by simp [hx]))
    simp only [mapE, ha, hr]
    rfl

theorem assocGet_set_self {α : Type} (l : List (String × α)) (k : String)
    (v : α) : assocGet (assocSet l k v) k = some v := by
  induction l with
  | nil => simp [assocSet, assocGet]
  | cons kv rest ih =>
    by_cases h : kv.1 = k
    · simp [assocSet, assocGet, h]
    · simp [assocSet, assocGet, h, ih]

theorem assocGet_set_other {α : Type} (l : List (String × α))
    (k' k : String) (v : α) (h : k' ≠ k) :
    assocGet (assocSet l k' v) k = assocGet l k := by
  induction l with
  | nil => simp [assocSet, assocGet, h]
  | cons kv rest ih =>
    by_cases hk : kv.1 = k'
    · simp [assocSet, assocGet, hk, h]
    · simp only [assocSet, hk, if_false, assocGet]
      by_cases hk2 : kv.1 = k <;> simp [hk2, ih]

/-! ## Claim C1 -/

def c1_state : EngineState := initialState "./data"

def c1_errRow (name : String) : Row :=
  [("id", Value.str "Error: Sequence 'users_id_seq' not found"),
   ("name", Value.str name)]

/-- C1: the claim says inserting N tuples into a freshly created table
assigns ids 1..N and a following SELECT returns those N rows.  On the
code, CREATE TABLE registers no sequence, `get_sequence_nextval`
therefore returns the error string `"Error: Sequence '<t>_id_seq' not
found"`, and `_execute_insert` stores that string as the `id` of every
inserted row; the SELECT returns the rows in insertion order but with
those error strings, never 1..N.  This theorem evaluates the exact
create/insert/select scenario. -/
theorem C1_fresh_table_insert_ids_are_error_strings :
    (do
      let r1 ← run_query c1_state "CREATE TABLE users (name text)"
      let r2 ← run_query r1.2 "INSERT INTO users(name) VALUES ('A'), ('B')"
      let r3 ← run_query r2.2 "SELECT * FROM users"
      pure (r2.1, r3.1, assocGet r2.2.files "users")) =
    Except.ok
      (RunResult.tuple "Inserted 2 records into table 'users'" (.rows []),
       RunResult.tuple "Query OK, 2 rows returned"
         (.rows [c1_errRow "A", c1_errRow "B"]),
       some [c1_errRow "A", c1_errRow "B"]) ∧
    rowGet (c1_errRow "A") "id" ≠ Value.int 1 := by
  exact ⟨rfl, by decide⟩

/-! ## Claim C6 -/

def c6_state : EngineState :=
  { initialState "./data" with
    sequences := [("users_id_seq", 5)], seqCacheHits := 9 }

def c6_task : List PyArg :=
  [.strA "./data/global/mpg_sequences.json", .strA "users_id_seq", .intA 6]

/-- C6: on the call that brings the hit counter to the threshold, the
engine does reset the counter and does submit a background write - but
the submission passes three positional arguments to the two-parameter
`_json_file_update_entries`, so the scheduled task raises `TypeError`
inside the worker and the persisted sequence document is never updated,
contradicting the claim that the cached value is written. -/
theorem C6_flush_task_raises_and_writes_nothing :
    (get_sequence_nextval c6_state "users_id_seq" false).1 = Value.int 6 ∧
    (get_sequence_nextval c6_state "users_id_seq" false).2.seqCacheHits = 0 ∧
    (get_sequence_nextval c6_state "users_id_seq" false).2.pendingTasks =
      [c6_task] ∧
    runPendingTask
      (get_sequence_nextval c6_state "users_id_seq" false).2.sequences
      c6_task =
      .error "TypeError: _json_file_update_entries() takes 3 positional arguments but 4 were given" ∧
    (get_sequence_nextval c6_state "users_id_seq" false).2.sequences =
      c6_state.sequences := by
  refine ⟨by decide, by decide, by decide, by decide, by decide⟩

/-! ## Claim C10 -/

def c2_state : EngineState :=
  { initialState "./data" with
    tables := [("users", ⟨[("name", "text")], "id ASC"⟩)],
    files := [("users", [[("id", Value.int 1), ("name", Value.str "A")]])] }

/-- C10: the exact text `SHOW TABLES` is dispatched (after the three
command kinds fail to match, which the tokenizer-contract hypotheses
record) to the catalog listing, returning the table count and the list
of table names; any other statement classified outside
SELECT/INSERT/CREATE falls to the unsupported-statement status. -/
theorem C10_show_tables_dispatch (st : EngineState) (q : String)
    (hq1 : specGetType q ≠ "SELECT") (hq2 : specGetType q ≠ "INSERT")
    (hq3 : specGetType q ≠ "CREATE") (hne : q ≠ "SHOW TABLES") :
    run_query st "SHOW TABLES" =
      .ok (.tuple ("Query OK, " ++ toString st.tables.length ++ " tables found")
        (.names (st.tables.map Prod.fst)), st) ∧
    run_query st q =
      .ok (.tuple ("Error: Unsupported query type: " ++ specGetType q)
        Payload.nothing, st) := by
  constructor
  · rfl
  · unfold run_query
    simp only [if_neg hq1, if_neg hq2, if_neg hq3, if_neg hne]

/-- C10 witness: a concrete catalog state, the literal `SHOW TABLES`
query and a concrete non-supported statement. -/
theorem C10_witness :
    run_query c2_state "SHOW TABLES" =
      .ok (.tuple ("Query OK, " ++ toString c2_state.tables.length ++
        " tables found") (.names (c2_state.tables.map Prod.fst)), c2_state) ∧
    run_query c2_state "DROP TABLE users" =
      .ok (.tuple ("Error: Unsupported query type: " ++
        specGetType "DROP TABLE users") Payload.nothing, c2_state) :=
  C10_show_tables_dispatch c2_state "DROP TABLE users"
    (by decide) (by decide) (by decide) (by decide)

/-! ## Claim C9 -/

/-- C9: an INSERT whose value tuple length differs from its column list
length is not rejected: the stored record is the dict of
`zip(["id"] ++ columns, (sequence_result,) ++ record)`, truncated to
the shorter side, and the returned status still reports a successful
insert.  (The proof never uses the length-mismatch hypothesis because
the code performs no length check at all - that is the point of the
claim.) -/
theorem C9_insert_zip_truncation (st : EngineState) (t : String)
    (info : TableInfo) (cols : List String) (rec : List Value)
    (hT : assocGet st.tables t = some info)
    (hS : info.sort = "id ASC")
    (hLen : rec.length ≠ cols.length) :
    execute_insert st ⟨some t, some cols, .recs [rec]⟩ =
      .ok (.tuple ("Inserted 1 records into table '" ++ t ++ "'") (.rows []),
        { (get_sequence_nextval st (t ++ "_id_seq") false).2 with
          files := assocSet
            (get_sequence_nextval st (t ++ "_id_seq") false).2.files t
            ((assocGet st.files t).getD [] ++
             [buildDict (List.zip ("id" :: cols)
               ((get_sequence_nextval st (t ++ "_id_seq") false).1 :: rec))]) }) := by
  unfold execute_insert
  simp only [hT, hS]
  simp [insertLoop]
  rw [show ("Inserted " ++ toString 1 ++ " records into table '" : String) =
    "Inserted 1 records into table '" from by decide]

def c9_state : EngineState :=
  { initialState "./data" with
    tables := [("t", ⟨[("a", "int"), ("b", "int")], "id ASC"⟩)],
    sequences := [("t_id_seq", 0)] }

/-- C9 witness: inserting a 1-tuple against a 2-column list. -/
theorem C9_witness :
    execute_insert c9_state ⟨some "t", some ["a", "b"], .recs [[Value.int 7]]⟩ =
      .ok (.tuple ("Inserted 1 records into table '" ++ "t" ++ "'") (.rows []),
        { (get_sequence_nextval c9_state ("t" ++ "_id_seq") false).2 with
          files := assocSet
            (get_sequence_nextval c9_state ("t" ++ "_id_seq") false).2.files "t"
            ((assocGet c9_state.files "t").getD [] ++
             [buildDict (List.zip ("id" :: ["a", "b"])
               ((get_sequence_nextval c9_state ("t" ++ "_id_seq") false).1 ::
                [Value.int 7]))]) }) :=
  C9_insert_zip_truncation c9_state "t" ⟨[("a", "int"), ("b", "int")], "id ASC"⟩
    ["a", "b"] [Value.int 7] (by decide) (by decide) (by decide)

/-! ## Claim C7 -/

theorem pyLt_null_right (v : Value) :
    pyLt v .null = .error "TypeError: unsupported operand types for comparison" := by
  cases v <;> rfl

/-- C7: the claim says `update_table_stats` succeeds on every table with
a non-empty storage file.  In the code the per-column minimum starts at
`None` and the first row computes `min(None, value)`, whose comparison
raises `TypeError` in Python 3 - so the statistics refresh raises on
every non-empty table with at least one column, and no statistics
document is written (the state is only returned on success). -/
theorem C7_update_stats_raises_on_nonempty (st : EngineState) (t : String)
    (info : TableInfo) (r0 : Row) (rows : List Row)
    (hT : assocGet st.tables t = some info)
    (hC : info.columns ≠ [])
    (hF : assocGet st.files t = some (r0 :: rows)) :
    ∃ e, update_table_stats st t = .error e := by
  obtain ⟨p, ps, hcols⟩ : ∃ p ps, info.columns = p :: ps := by
    cases h : info.columns with
    | nil => exact absurd h hC
    | cons p ps => exact ⟨p, ps, rfl⟩
  have hstep : ∃ e, statsRowFold info.colNames
      (statsColsInit info.colNames) r0 = .error e := by
    rw [show info.colNames = p.1 :: ps.map Prod.fst from by
      simp [TableInfo.colNames, hcols]]
    cases hv : assocGet r0 p.1 with
    | none =>
      refine ⟨"KeyError: '" ++ p.1 ++ "'", ?_⟩
      apply foldlM_error_head
      simp [statsColsInit, assocGet, rowIndex, hv]
    | some v =>
      refine ⟨"TypeError: unsupported operand types for comparison", ?_⟩
      apply foldlM_error_head
      simp [statsColsInit, assocGet, rowIndex, hv, statUpdateCol, pyMin,
        pyLt_null_right]
  obtain ⟨e, he⟩ := hstep
  refine ⟨e, ?_⟩
  unfold update_table_stats
  simp only [hT, hF, exceptPure, exceptBind_ok]
  rw [foldlM_error_head _ _ _ _ e (by simp [he])]
  rfl

def c7_state : EngineState :=
  { initialState "./data" with
    tables := [("users", ⟨[("name", "text")], "id ASC"⟩)],
    files := [("users", [[("id", Value.int 1), ("name", Value.str "A")]])] }

/-- C7 witness: one row, one declared column. -/
theorem C7_witness :
    ∃ e, update_table_stats c7_state "users" = .error e :=
  C7_update_stats_raises_on_nonempty c7_state "users"
    ⟨[("name", "text")], "id ASC"⟩ [("id", Value.int 1), ("name", Value.str "A")]
    [] (by decide) (by decide) (by decide)

/-! ## Claim C2 -/

/-- C2 counterexample: the claim asserts every failure is returned as an
`"Error: "`-prefixed status and that nothing escapes `run_query` as a
raised fault.  A malformed CREATE TABLE does escape: the planner raises
(`raise Exception(...)` in `_generate_create_table_plan`) and
`run_query` has no handler, so the call produces an exception, not a
status tuple (the repository's own HTTP front end wraps `run_query` in
`try/except` for exactly this reason). -/
theorem C2_counterexample :
    run_query (initialState "./data") "CREATE TABLE foo" =
      .error "Error: Invalid CREATE TABLE query: Table name not found" := by
  decide

/-- C2 amended: unsupported statement kinds are indeed returned as
`"Error: "`-prefixed statuses, but the no-throw guarantee fails: a
malformed CREATE TABLE and a malformed WHERE predicate both propagate
as raised exceptions, and a SELECT-side validation failure is returned
wrapped in a `"Query OK, N rows returned"` status whose payload is the
error string itself (N = the error text's length, 43 here). -/
theorem C2_error_surfacing (st : EngineState) (q : String)
    (hq1 : specGetType q ≠ "SELECT") (hq2 : specGetType q ≠ "INSERT")
    (hq3 : specGetType q ≠ "CREATE") (hne : q ≠ "SHOW TABLES") :
    run_query st q =
      .ok (.tuple ("Error: Unsupported query type: " ++ specGetType q)
        Payload.nothing, st) ∧
    run_query c2_state "CREATE TABLE foo" =
      .error "Error: Invalid CREATE TABLE query: Table name not found" ∧
    run_query c2_state "SELECT * FROM users WHERE bogus" =
      .error "ValueError: Invalid expression: bogus" ∧
    run_query c2_state "SELECT nope FROM users" =
      .ok (.tuple "Query OK, 43 rows returned"
        (.raw "Error: Column 'nope' not found in any table"), c2_state) := by
  refine ⟨?_, by decide, by decide, by decide⟩
  unfold run_query
  simp only [if_neg hq1, if_neg hq2, if_neg hq3, if_neg hne]

/-- C2 witness: the quantified part at a concrete unsupported
statement. -/
theorem C2_witness :
    run_query c2_state "DELETE FROM users" =
      .ok (.tuple ("Error: Unsupported query type: " ++
        specGetType "DELETE FROM users") Payload.nothing, c2_state) :=
  (C2_error_surfacing c2_state "DELETE FROM users"
    (by decide) (by decide) (by decide) (by decide)).1

/-! ## Claim C5 -/

def c5row : Row := [("a", Value.int 1), ("b", Value.int 5), ("c", Value.int 3)]

/-- C5 counterexample: the claim says the evaluator treats
`"a = 1 AND b = 2 OR c = 3"` as `(a=1) AND (b=2)`, discarding the OR.
On the row `{a: 1, b: 5, c: 3}` that reading is false (`b ≠ 2`), yet
the evaluator returns true: the second AND-chunk `"b = 2 OR c = 3"` is
evaluated recursively, so its OR is honoured (`c = 3` holds). -/
theorem C5_counterexample :
    evaluate_where c5row "a = 1 AND b = 2 OR c = 3" = .ok true ∧
    (pyEq (rowGet c5row "a") (Value.int 1) &&
     pyEq (rowGet c5row "b") (Value.int 2)) = false :=
  ⟨by decide, by decide⟩

/-- C5 amended: AND-splitting does take priority, but each AND-chunk is
evaluated recursively, so for every row the expression evaluates as
`(a=1) AND ((b=2) OR (c=3))` - not as `(a=1) AND (b=2)` and not with
SQL precedence `((a=1) AND (b=2)) OR (c=3)` either. -/
theorem C5_and_priority_with_recursive_or (row : Row) :
    evaluate_where row "a = 1 AND b = 2 OR c = 3" =
      .ok (pyEq (rowGet row "a") (Value.int 1) &&
           (pyEq (rowGet row "b") (Value.int 2) ||
            pyEq (rowGet row "c") (Value.int 3))) := by
  have e1 : evaluate_where row "a = 1 AND b = 2 OR c = 3" =
      (match pyEq (rowGet row "a") (Value.int 1) with
       | false => Except.ok false
       | true => Except.bind
           (match pyEq (rowGet row "b") (Value.int 2) with
            | true => Except.ok true
            | false =>
              match pyEq (rowGet row "c") (Value.int 3) with
              | true => Except.ok true
              | false => Except.ok false)
           (fun b => match b with
            | false => Except.ok false
            | true => Except.ok true)) := rfl
  rw [e1]
  cases pyEq (rowGet row "a") (Value.int 1) <;>
    cases pyEq (rowGet row "b") (Value.int 2) <;>
      cases pyEq (rowGet row "c") (Value.int 3) <;> rfl

/-! ## Claim C8 -/

theorem string_data_append (s t : String) : (s ++ t).data = s.data ++ t.data :=
  rfl

theorem firstIdxOf_append_self (ch : Char) (pre suf : List Char)
    (h : ch ∉ pre) : firstIdxOf ch (pre ++ ch :: suf) = some pre.length := by
  induction pre with
  | nil => simp [firstIdxOf]
  | cons c cs ih =>
    have hc : ¬ c = ch := fun he => h (by simp [he])
    have ih' := ih (fun hm => h (List.mem_cons_of_mem c hm))
    simp [firstIdxOf, hc, ih']

theorem takeWhile_all {p : Char → Bool} :
    ∀ {l : List Char}, (∀ x ∈ l, p x) → l.takeWhile p = l
  | [], _ => rfl
  | c :: cs, h => by
    have hc : p c := h c (by simp)
    have hrest : ∀ x ∈ cs, p x := fun x hx => h x (List.mem_cons_of_mem c hx)
    simp [List.takeWhile, hc, takeWhile_all hrest]

/-- The lazy name group of `r'CREATE TABLE (.+?)\('`: everything up to
the first later `(`. -/
theorem createNameAt_clean (c0 : Char) (cs tail : List Char)
    (hp : '(' ∉ c0 :: cs) (hl : '\n' ∉ c0 :: cs) :
    createNameAt ((c0 :: cs) ++ '(' :: tail) = some (c0 :: cs) := by
  have hfi : firstIdxOf '(' (cs ++ '(' :: tail) = some cs.length :=
    firstIdxOf_append_self '(' cs tail (fun hm => hp (List.mem_cons_of_mem c0 hm))
  have htake : (cs ++ '(' :: tail).take cs.length = cs := by
    simpa using List.take_left cs ('(' :: tail)
  have hl1 : ¬ '\n' = c0 := by
    intro he
    exact hl (by rw [he]; exact List.mem_cons_self _ _)
  have hl2 : '\n' ∉ cs := fun hm => hl (List.mem_cons_of_mem c0 hm)
  simp [createNameAt, List.cons_append, hfi, List.take_succ_cons, htake,
    hl1, hl2]

theorem searchCreateName_head (s g : List Char) (fuel : Nat)
    (hm : matchesAtCI "CREATE TABLE ".data s = true)
    (hg : createNameAt (s.drop 13) = some g) :
    searchCreateName (fuel + 1) s = some g := by
  cases s with
  | nil => cases hm
  | cons c rest =>
    have hg' : createNameAt (List.drop 12 rest) = some g := hg
    simp [searchCreateName, hm, hg']

theorem searchParenContent_found (pre rest g : List Char) :
    ∀ (fuel : Nat), '(' ∉ pre → pre.length < fuel →
    parenContentAt rest = some g →
    searchParenContent fuel (pre ++ '(' :: rest) = some g := by
  induction pre with
  | nil =>
    intro fuel _ hf hg
    cases fuel with
    | zero => omega
    | succ f => simp [searchParenContent, hg]
  | cons c cs ih =>
    intro fuel hp hf hg
    cases fuel with
    | zero => omega
    | succ f =>
      have hc : ¬ c = '(' := fun he => hp (by simp [he])
      have := ih f (fun hm => hp (List.mem_cons_of_mem c hm))
        (by simp at hf; omega) hg
      simpa [searchParenContent, hc] using this

theorem parenContentAt_clean (bs : List Char) (hb : bs ≠ [])
    (hbl : '\n' ∉ bs) :
    parenContentAt (bs ++ [')']) = some bs := by
  have hseg : (bs ++ [')']).takeWhile (· ≠ '\n') = bs ++ [')'] := by
    apply takeWhile_all
    intro x hx
    rcases List.mem_append.mp hx with h | h
    · exact decide_eq_true (fun he => hbl (he ▸ h))
    · simp only [List.mem_singleton] at h
      subst h
      decide
  have hlast : lastIdxOf ')' (bs ++ [')']) = some bs.length := by
    unfold lastIdxOf
    have hrev : (bs ++ [')']).reverse = ')' :: bs.reverse := by simp
    rw [hrev]
    have h0 : firstIdxOf ')' (')' :: bs.reverse) = some 0 := by
      simp [firstIdxOf]
    rw [h0]
    simp
  have h1 : 1 ≤ bs.length := List.length_pos.mpr hb
  unfold parenContentAt
  rw [hseg]
  show (match lastIdxOf ')' (bs ++ [')']) with
    | some k => if 1 ≤ k then some (List.take k (bs ++ [')'])) else none
    | none => none) = some bs
  rw [hlast]
  simp only [if_pos h1]
  have ht : List.take bs.length (bs ++ [')']) = bs := by
    simpa using List.take_left bs [')']
  rw [ht]

/-- C8 amended (main part): for a statement of the shape
`CREATE TABLE <name>(<columns>)` - `<name>` nonempty without `(`,
`<columns>` nonempty, neither containing a newline - the compiled
table name is exactly `<name>` (stripped), and the columns mapping is
built from exactly `<columns>` (stripped), split on `", "`, keeping
only the first two space-separated pieces of each entry as name and
declared type (an entry without a space raises `IndexError`).  The
claim's assertion that a multi-word type like `"double precision"` is
kept whole is what fails - see the counterexample. -/
theorem C8_create_table_plan_extraction (n b : String)
    (hn : n.data ≠ []) (hnp : '(' ∉ n.data) (hnl : '\n' ∉ n.data)
    (hb : b.data ≠ []) (hbl : '\n' ∉ b.data) :
    generate_create_table_plan ("CREATE TABLE " ++ n ++ "(" ++ b ++ ")") =
      (do
        let pairs ← mapE (fun col =>
          match splitOnSub [' '] col with
          | c0 :: c1 :: _ => pure (String.mk c0, String.mk c1)
          | _ => Except.error "IndexError: list index out of range")
          (splitOnSub ", ".data (trimChars b.data))
        pure ⟨String.mk (trimChars n.data), buildStrDict pairs⟩) := by
  obtain ⟨c0, cs, hnd⟩ : ∃ c0 cs, n.data = c0 :: cs := by
    cases h : n.data with
    | nil => exact absurd h hn
    | cons c0 cs => exact ⟨c0, cs, rfl⟩
  have hq : ("CREATE TABLE " ++ n ++ "(" ++ b ++ ")").data =
      "CREATE TABLE ".data ++ (n.data ++ '(' :: (b.data ++ [')'])) := by
    simp [string_data_append, List.append_assoc]
  have hname : createNameAt (("CREATE TABLE ".data ++
      (n.data ++ '(' :: (b.data ++ [')']))).drop 13) = some n.data := by
    have : ("CREATE TABLE ".data ++
        (n.data ++ '(' :: (b.data ++ [')']))).drop 13 =
        n.data ++ '(' :: (b.data ++ [')']) := rfl
    rw [this, hnd]
    exact createNameAt_clean c0 cs _ (hnd ▸ hnp) (hnd ▸ hnl)
  have hm : matchesAtCI "CREATE TABLE ".data
      ("CREATE TABLE ".data ++ (n.data ++ '(' :: (b.data ++ [')']))) = true :=
    rfl
  have hsearch : ∀ fuel : Nat, searchCreateName (fuel + 1)
      ("CREATE TABLE ".data ++ (n.data ++ '(' :: (b.data ++ [')']))) =
      some n.data :=
    fun fuel => searchCreateName_head _ _ fuel hm hname
  have hparen : searchParenContent
      (("CREATE TABLE ".data ++ (n.data ++ '(' :: (b.data ++ [')']))).length + 1)
      ("CREATE TABLE ".data ++ (n.data ++ '(' :: (b.data ++ [')']))) =
      some b.data := by
    have hassoc : "CREATE TABLE ".data ++ (n.data ++ '(' :: (b.data ++ [')'])) =
        ("CREATE TABLE ".data ++ n.data) ++ '(' :: (b.data ++ [')']) := by
      simp [List.append_assoc]
    rw [hassoc]
    apply searchParenContent_found
    · intro hmem
      rcases List.mem_append.mp hmem with h | h
      · revert h
        decide
      · exact hnp h
    · simp
      omega
    · exact parenContentAt_clean b.data hb hbl
  unfold generate_create_table_plan
  rw [hq, hsearch, hparen]
  rfl

/-- C8 counterexample: for `CREATE TABLE t (price double precision)`
the compiled columns mapping is `{price: double}` - the entry is split
on every space and only `c[0]`/`c[1]` are kept, so the multi-word
declared type `"double precision"` is NOT kept whole, contradicting the
claim's parenthetical. -/
theorem C8_counterexample :
    generate_create_table_plan "CREATE TABLE t (price double precision)" =
      .ok ⟨"t", [("price", "double")]⟩ ∧
    ([("price", "double")] : List (String × String)) ≠
      [("price", "double precision")] :=
  ⟨by decide, by decide⟩

/-- C8 witness: the extraction theorem at a concrete statement. -/
theorem C8_witness :
    generate_create_table_plan
        ("CREATE TABLE " ++ "users " ++ "(" ++ "name text, age int" ++ ")") =
      (do
        let pairs ← mapE (fun col =>
          match splitOnSub [' '] col with
          | c0 :: c1 :: _ => pure (String.mk c0, String.mk c1)
          | _ => Except.error "IndexError: list index out of range")
          (splitOnSub ", ".data (trimChars ("name text, age int" : String).data))
        pure ⟨String.mk (trimChars ("users " : String).data),
          buildStrDict pairs⟩) :=
  C8_create_table_plan_extraction "users " "name text, age int"
    (by decide) (by decide) (by decide) (by decide) (by decide)

/-! ## Claim C3 -/

theorem assocGet_set_isSome {α : Type} (l : List (String × α))
    (k' k : String) (v : α) (h : (assocGet l k).isSome) :
    (assocGet (assocSet l k' v) k).isSome := by
  by_cases he : k' = k
  · subst he; simp [assocGet_set_self]
  · rw [assocGet_set_other l k' k v he]; exact h

theorem assocUpdate_cons {α : Type} (l : List (String × α))
    (x : String × α) (xs : List (String × α)) :
    assocUpdate l (x :: xs) = assocUpdate (assocSet l x.1 x.2) xs := rfl

theorem assocGet_update_isSome {α : Type} (other l : List (String × α))
    (k : String) (h : (assocGet l k).isSome) :
    (assocGet (assocUpdate l other) k).isSome := by
  induction other generalizing l with
  | nil => exact h
  | cons x xs ih =>
    rw [assocUpdate_cons]
    exact ih _ (assocGet_set_isSome l x.1 k x.2 h)

/-- The merged row the amended claim describes for one base row: fold
over the joined rows, merging each one that matches the current
(possibly already merged) row on the join columns. -/
def joinMerge (l r : String) (pjoin : List Row) (row : Row) : Row :=
  pjoin.foldl (fun acc jr =>
    if pyEq (rowGet acc l) (rowGet jr r) then assocUpdate acc jr else acc) row

/-- The amended join semantics: every base row is emitted, in order,
merged via `joinMerge`; base rows with no match are emitted unchanged. -/
def specJoin (l r : String) (pjoin pbase : List Row) : List Row :=
  pbase.map (joinMerge l r pjoin)

theorem joinRowFold_pure (l r : String) :
    ∀ (jrows : List Row), (∀ jr ∈ jrows, (assocGet jr r).isSome) →
    ∀ (row : Row), (assocGet row l).isSome →
    joinRowFold l r jrows row = .ok (joinMerge l r jrows row) := by
  intro jrows
  induction jrows with
  | nil => intro _ row _; rfl
  | cons jr rest ih =>
    intro hR row hrow
    obtain ⟨v, hv⟩ := Option.isSome_iff_exists.mp hrow
    obtain ⟨w, hw⟩ := Option.isSome_iff_exists.mp (hR jr (by simp))
    have hRrest : ∀ x ∈ rest, (assocGet x r).isSome :=
      fun x hx => hR x (List.mem_cons_of_mem jr hx)
    have hgl : rowGet row l = v := by simp [rowGet, hv]
    have hgr : rowGet jr r = w := by simp [rowGet, hw]
    unfold joinRowFold joinMerge
    simp only [List.foldlM, List.foldl, rowIndex, hv, hw, exceptBind_ok,
      exceptPure, hgl, hgr]
    by_cases hc : pyEq v w
    · simp only [hc, if_true, if_pos hc]
      have hrow' : (assocGet (assocUpdate row jr) l).isSome :=
        assocGet_update_isSome jr row l hrow
      have := ih hRrest (assocUpdate row jr) hrow'
      unfold joinRowFold joinMerge at this
      exact this
    · simp only [hc, if_false, if_neg hc]
      have := ih hRrest row hrow
      unfold joinRowFold joinMerge at this
      exact this

/-- The final loop on a `SELECT *` plan with no WHERE and no LIMIT
passes every row through. -/
theorem emitLoop_star_all (gby : Option (List String)) :
    ∀ (rows acc : List Row),
    emitLoop ["*"] none gby none acc rows = .ok (acc ++ rows) := by
  intro rows
  induction rows with
  | nil => intro acc; simp [emitLoop]
  | cons row rest ih =>
    intro acc
    have := ih (acc ++ [row])
    simp only [emitLoop, whereTruthy, limitTruthy, Bool.false_and,
      exceptBind_ok, exceptPure] at this ⊢
    simpa [this] using (by simp : acc ++ [row] ++ rest = acc ++ (row :: rest)) ▸ this

/-- C3 amended theorem: for a SELECT * with one declared join (tables
and files resolving, both scans succeeding, join columns present in the
prefixed rows), the result is `specJoin`: every base row in order,
merged with each joined row matching on the declared columns; base rows
with no match are emitted unchanged, not dropped - the `kind` is
ignored but so is the inner-join filter the claim asserts. -/
theorem C3_join_keeps_unmatched_rows (st : EngineState) (bt jt : String)
    (bi ji : TableInfo) (jkind onS : String)
    (brows jrows : List Row) (l r : String) (pbase pjoin : List Row)
    (hne : bt ≠ jt)
    (hBT : assocGet st.tables bt = some bi)
    (hJT : assocGet st.tables jt = some ji)
    (hBF : assocGet st.files bt = some brows)
    (hJF : assocGet st.files jt = some jrows)
    (hOn : joinOnParts onS = .ok (l, r))
    (hPB : mapE (prefixRow bi bt) brows = .ok pbase)
    (hPJ : mapE (prefixRow ji jt) jrows = .ok pjoin)
    (hL : ∀ row ∈ pbase, (assocGet row l).isSome)
    (hR : ∀ jr ∈ pjoin, (assocGet jr r).isSome) :
    execute_select st
      ⟨["*"], some bt, [(jt, ⟨jkind, onS⟩)], none, [], none, none⟩ =
      .ok (.rows (specJoin l r pjoin pbase)) := by
  have hmerge : mapE (joinRowFold l r pjoin) pbase =
      .ok (pbase.map (joinMerge l r pjoin)) :=
    mapE_ok_of_forall (fun row hrow =>
      joinRowFold_pure l r pjoin hR row (hL row hrow))
  unfold execute_select execute_select_core
  simp only [List.foldlM, hBT, hJT, hBF, hJF, hOn, hPB, hPJ, hmerge,
    exceptBind_ok, exceptPure, selLift_ok]
  simp [validateCols, supported_functions, assocSet, assocGet, hne,
    file_scan, groupByTruthy, whereTruthy, limitTruthy,
    emitLoop_star_all, specJoin, hPB, hPJ, hmerge, Ne.symm hne,
    show containsSub ['.'] ['*'] = false from rfl]

def c3_state : EngineState :=
  { initialState "./data" with
    tables := [("users", ⟨[("uid", "int")], "id ASC"⟩),
               ("orders", ⟨[("ouid", "int")], "id ASC"⟩)],
    files := [("users", [[("uid", Value.int 1)]]),
              ("orders", [[("ouid", Value.int 2)]])] }

def c3_plan : SelectPlan :=
  ⟨["*"], some "users", [("orders", ⟨"JOIN", "users.uid = orders.ouid"⟩)],
   none, [], none, none⟩

/-- C3 counterexample: one base row, one joined row, no match on the
declared columns (`1 ≠ 2`) - the claim says the result set must be
empty (inner-join semantics), but the engine emits the unmatched base
row unchanged: the join loop only merges matches, it never filters. -/
theorem C3_counterexample :
    execute_select c3_state c3_plan =
      .ok (.rows [[("users.uid", Value.int 1)]]) ∧
    pyEq (Value.int 1) (Value.int 2) = false :=
  ⟨by decide, by decide⟩

/-- C3 witness: the amended theorem at the counterexample's state (the
matching case is also covered by `specJoin`). -/
theorem C3_witness :
    execute_select c3_state c3_plan =
      .ok (.rows (specJoin "users.uid" "orders.ouid"
        [[("orders.ouid", Value.int 2)]] [[("users.uid", Value.int 1)]])) :=
  C3_join_keeps_unmatched_rows c3_state "users" "orders"
    ⟨[("uid", "int")], "id ASC"⟩ ⟨[("ouid", "int")], "id ASC"⟩
    "JOIN" "users.uid = orders.ouid"
    [[("uid", Value.int 1)]] [[("ouid", Value.int 2)]]
    "users.uid" "orders.ouid"
    [[("users.uid", Value.int 1)]] [[("orders.ouid", Value.int 2)]]
    (by decide) (by decide) (by decide) (by decide) (by decide)
    (by decide) (by decide) (by decide)
    (by decide) (by decide)

/-! ## Claim C4 -/

theorem assocGet_append {α : Type} (b : List (String × α)) :
    ∀ (a : List (String × α)) (k : String),
    assocGet (a ++ b) k =
      (match assocGet a k with
       | some v => some v
       | none => assocGet b k) := by
  intro a
  induction a with
  | nil => intro k; rfl
  | cons kv rest ih =>
    intro k
    by_cases h : kv.1 = k <;> simp [assocGet, h, ih]

theorem assocSet_fresh {α : Type} :
    ∀ (l : List (String × α)) (k : String) (v : α),
    assocGet l k = none → assocSet l k v = l ++ [(k, v)] := by
  intro l
  induction l with
  | nil => intro k v _; rfl
  | cons kv rest ih =>
    intro k v h
    by_cases he : kv.1 = k
    · simp [assocGet, he] at h
    · simp [assocGet, he] at h
      simp [assocSet, he, ih k v h]

theorem assocGet_update_not_mem {α : Type} :
    ∀ (other l : List (String × α)) (k : String),
    k ∉ other.map Prod.fst →
    assocGet (assocUpdate l other) k = assocGet l k := by
  intro other
  induction other with
  | nil => intro l k _; rfl
  | cons p rest ih =>
    intro l k h
    rw [assocUpdate_cons]
    have hk : p.1 ≠ k := fun he => h (by simp [he])
    rw [ih _ k (fun hm => h (by simp [hm]))]
    exact assocGet_set_other l p.1 k p.2 hk

theorem assocGet_update_of_mem_nodup {α : Type} :
    ∀ (fields : List (String × α)) (start : List (String × α))
    (c : String) (v : α),
    (c, v) ∈ fields → (fields.map Prod.fst).Nodup →
    assocGet (assocUpdate start fields) c = some v := by
  intro fields
  induction fields with
  | nil => intro _ _ _ h; cases h
  | cons p rest ih =>
    intro start c v hmem hnd
    rw [assocUpdate_cons]
    rcases List.mem_cons.mp hmem with he | hr
    · subst he
      have hnot : c ∉ rest.map Prod.fst := by
        simp only [List.map_cons, List.nodup_cons] at hnd
        exact hnd.1
      rw [assocGet_update_not_mem rest _ c hnot]
      exact assocGet_set_self start c v
    · exact ih _ c v hr (by
        simp only [List.map_cons, List.nodup_cons] at hnd
        exact hnd.2)

theorem mapE_append {α β : Type} (f : α → Except String β) :
    ∀ (a b : List α),
    mapE f (a ++ b) = (do
      let xs ← mapE f a
      let ys ← mapE f b
      pure (xs ++ ys)) := by
  intro a
  induction a with
  | nil =>
    intro b
    simp only [List.nil_append, mapE]
    cases h : mapE f b <;> simp [h]
  | cons x xs ih =>
    intro b
    simp only [List.cons_append, mapE, List.append_eq]
    rw [ih b]
    cases hx : f x with
    | error e => simp
    | ok v =>
      simp only [exceptBind_ok]
      cases hxs : mapE f xs with
      | error e => simp
      | ok vs =>
        simp only [exceptBind_ok]
        cases hb : mapE f b with
        | error e => simp
        | ok ws => simp

/-- One selected column of one retained group, per the (amended) claim:
an aggregate is applied to the retained rows, a plain column reads the
first retained row. -/
def specField (retained : List Row) (c : String) :
    Except String (String × Value) :=
  if supported_functions.contains c then do
    let v ← applyAgg c retained
    pure (c, v)
  else do
    let v ← rowIndex (retained.headD []) c
    pure (c, v)

/-- One group's emitted record per the amended claim: apply the WHERE
filter per row inside the group, drop the group if it empties, else
emit exactly the selected columns in order. -/
def specGroupFields (sel : List String) (whereC : Option String)
    (bucket : List Row) : Except String (Option Row) := do
  let retained ←
    if whereTruthy whereC then filterWhere (whereC.getD "") bucket
    else pure bucket
  if retained.length = 0 then pure none
  else do
    let fields ← mapE (specField retained) sel
    pure (some fields)

/-- The amended grouped-SELECT semantics: partition the scanned rows by
the group-key tuple (first-seen order), emit one record per surviving
group consisting of exactly the selected columns. -/
def specGroupedSelect (sel gs : List String) (whereC : Option String)
    (rows : List Row) : Except String (List Row) := do
  let buckets ← groupRows gs rows
  let recs ← mapE (fun b => specGroupFields sel whereC b.2) buckets
  pure recs.reduceOption

theorem specField_fst (retained : List Row) (c : String)
    (p : String × Value) (h : specField retained c = .ok p) : p.1 = c := by
  unfold specField at h
  by_cases hc : supported_functions.contains c
  · rw [if_pos hc] at h
    cases hv : applyAgg c retained with
    | error e => rw [hv] at h; cases h
    | ok v =>
      rw [hv] at h
      simp only [exceptBind_ok, exceptPure, Except.ok.injEq] at h
      rw [← h]
  · rw [if_neg hc] at h
    cases hv : rowIndex (retained.headD []) c with
    | error e => rw [hv] at h; cases h
    | ok v =>
      rw [hv] at h
      simp only [exceptBind_ok, exceptPure, Except.ok.injEq] at h
      rw [← h]

theorem mapE_specField_keys (retained : List Row) :
    ∀ (sel : List String) (fields : Row),
    mapE (specField retained) sel = .ok fields →
    fields.map Prod.fst = sel := by
  intro sel
  induction sel with
  | nil => intro fields h; cases h; rfl
  | cons c cs ih =>
    intro fields h
    unfold mapE at h
    cases hc : specField retained c with
    | error e => rw [hc] at h; cases h
    | ok p =>
      rw [hc] at h
      cases hcs : mapE (specField retained) cs with
      | error e => rw [hcs] at h; cases h
      | ok ps =>
        rw [hcs] at h
        simp at h
        subst h
        simp [specField_fst retained c p hc, ih ps hcs]

/-- The record-building fold of `buildGroupRecord` equals computing the
selected fields first (in order, same effects and errors) and then
updating them into the start dict. -/
theorem groupRecordFold_eq (retained : List Row) :
    ∀ (sel : List String) (start : Row),
    List.foldlM (fun acc col => do
      if supported_functions.contains col then
        let v ← applyAgg col retained
        pure (assocSet acc col v)
      else do
        let v ← rowIndex (retained.headD []) col
        pure (assocSet acc col v)) start sel =
    (mapE (specField retained) sel).map
      (fun fields => assocUpdate start fields) := by
  intro sel
  induction sel with
  | nil => intro start; rfl
  | cons c cs ih =>
    intro start
    simp only [List.foldlM, mapE, specField]
    by_cases hc : supported_functions.contains c
    · rw [if_pos hc, if_pos hc]
      cases hv : applyAgg c retained with
      | error e => simp [hv]
      | ok v =>
        simp only [hv, exceptBind_ok, exceptBind_pureArg]
        rw [ih (assocSet start c v)]
        cases hm : mapE (specField retained) cs with
        | error e => simp [hm]
        | ok fs => simp [hm, assocUpdate_cons]
    · rw [if_neg hc, if_neg hc]
      cases hv : rowIndex (retained.headD []) c with
      | error e => simp [hv]
      | ok v =>
        simp only [hv, exceptBind_ok, exceptBind_pureArg]
        rw [ih (assocSet start c v)]
        cases hm : mapE (specField retained) cs with
        | error e => simp [hm]
        | ok fs => simp [hm, assocUpdate_cons]

/-- One group's engine record is the group's spec fields pushed into the
start dict (the `row = {}`-or-last-row dict updated with the group
keys). -/
theorem buildGroupRecord_eq (sel gs : List String) (whereC : Option String)
    (key : List Value) (bucket : List Row) :
    buildGroupRecord sel gs whereC key bucket =
      (specGroupFields sel whereC bucket).map (Option.map (fun fields =>
        assocUpdate ((gs.zip key).foldl (fun acc kv => assocSet acc kv.1 kv.2)
          (if whereTruthy whereC then bucket.getLastD [] else []))
          fields)) := by
  unfold buildGroupRecord specGroupFields
  cases hw : whereTruthy whereC with
  | false =>
    simp only [hw, Bool.false_eq_true, if_false, if_neg, exceptBind_pureArg]
    by_cases hz : bucket.length = 0
    · simp [hz]
    · simp only [hz, if_neg hz]
      rw [groupRecordFold_eq]
      cases hm : mapE (specField bucket) sel with
      | error e => simp [hm]
      | ok fs => simp [hm]
  | true =>
    simp only [hw, if_true]
    cases hf : filterWhere (whereC.getD "") bucket with
    | error e => simp [hf]
    | ok retained =>
      simp only [hf, exceptBind_ok]
      by_cases hz : retained.length = 0
      · simp [hz]
      · simp only [hz, if_neg hz]
        rw [groupRecordFold_eq]
        cases hm : mapE (specField retained) sel with
        | error e => simp [hm]
        | ok fs => simp [hm]

theorem specGroupFields_some_keys (sel : List String) (whereC : Option String)
    (bucket : List Row) (fields : Row)
    (h : specGroupFields sel whereC bucket = .ok (some fields)) :
    fields.map Prod.fst = sel := by
  unfold specGroupFields at h
  have keysOf : ∀ (retained : List Row),
      (if retained.length = 0 then (pure none : Except String (Option Row))
       else do
        let fields ← mapE (specField retained) sel
        pure (some fields)) = .ok (some fields) →
      fields.map Prod.fst = sel := by
    intro retained hh
    by_cases hz : retained.length = 0
    · rw [if_pos hz] at hh; simp at hh
    · rw [if_neg hz] at hh
      cases hm : mapE (specField retained) sel with
      | error e => rw [hm] at hh; cases hh
      | ok fs =>
        rw [hm] at hh
        simp only [exceptBind_ok, exceptPure, Except.ok.injEq,
          Option.some.injEq] at hh
        exact hh ▸ mapE_specField_keys retained sel fs hm
  cases hw : whereTruthy whereC with
  | false =>
    rw [hw] at h
    simp only [Bool.false_eq_true, if_false, if_neg, exceptBind_pureArg] at h
    exact keysOf bucket h
  | true =>
    rw [hw] at h
    simp only [if_true] at h
    cases hf : filterWhere (whereC.getD "") bucket with
    | error e => rw [hf] at h; cases h
    | ok retained =>
      rw [hf] at h
      simp only [exceptBind_ok] at h
      exact keysOf retained h

/-- The projection loop over fresh, dot-free keys found in the row
appends exactly the looked-up fields. -/
theorem projLoop_fresh (row : Row) :
    ∀ (fields : Row) (acc : Row),
    (∀ p ∈ fields, containsSub ['.'] p.1.data = false ∧
      assocGet row p.1 = some p.2 ∧ assocGet acc p.1 = none) →
    (fields.map Prod.fst).Nodup →
    List.foldlM (projStep row) acc (fields.map Prod.fst) =
      .ok (acc ++ fields) := by
  intro fields
  induction fields with
  | nil => intro acc _ _; simp [List.foldlM]
  | cons p rest ih =>
    intro acc h hnd
    obtain ⟨hdot, hget, hfresh⟩ := h p (by simp)
    have hstep : projStep row acc p.1 = .ok (acc ++ [(p.1, p.2)]) := by
      unfold projStep
      simp only [hdot, Bool.false_eq_true, if_false, if_neg, rowIndex, hget,
        exceptBind_ok, exceptPure]
      rw [assocSet_fresh acc p.1 p.2 hfresh]
    simp only [List.map_cons, List.foldlM, hstep, exceptBind_ok]
    have hnd' : (rest.map Prod.fst).Nodup := by
      simp only [List.map_cons, List.nodup_cons] at hnd
      exact hnd.2
    have hp1 : p.1 ∉ rest.map Prod.fst := by
      simp only [List.map_cons, List.nodup_cons] at hnd
      exact hnd.1
    have h' : ∀ q ∈ rest, containsSub ['.'] q.1.data = false ∧
        assocGet row q.1 = some q.2 ∧
        assocGet (acc ++ [(p.1, p.2)]) q.1 = none := by
      intro q hq
      obtain ⟨hd, hg, hf⟩ := h q (List.mem_cons_of_mem p hq)
      refine ⟨hd, hg, ?_⟩
      rw [assocGet_append]
      rw [hf]
      have hne : p.1 ≠ q.1 := by
        intro he
        exact hp1 (he ▸ List.mem_map_of_mem Prod.fst hq)
      simp [assocGet, hne]
    have := ih (acc ++ [(p.1, p.2)]) h' hnd'
    rw [this]
    simp

theorem projectRowRecord_update (row : Row) (fields : Row)
    (h : ∀ p ∈ fields, containsSub ['.'] p.1.data = false ∧
      assocGet row p.1 = some p.2)
    (hnd : (fields.map Prod.fst).Nodup) :
    projectRowRecord row (fields.map Prod.fst) = .ok fields := by
  have := projLoop_fresh row fields []
    (fun p hp => ⟨(h p hp).1, (h p hp).2, rfl⟩) hnd
  simpa [projectRowRecord] using this

/-- The final loop on a grouped plan with no LIMIT and a non-`*` select
list projects each record, in order. -/
theorem emitLoop_project (sel : List String) (whereC : Option String)
    (gs : List String) (hgs : gs ≠ []) (hns : sel ≠ ["*"]) :
    ∀ (rows acc : List Row),
    emitLoop sel whereC (some gs) none acc rows =
      (mapE (fun row => projectRowRecord row sel) rows).map
        (fun ps => acc ++ ps) := by
  have hgb : groupByTruthy (some gs) = true := by
    cases gs with
    | nil => exact absurd rfl hgs
    | cons g gsr => rfl
  intro rows
  induction rows with
  | nil => intro acc; simp [emitLoop, mapE]
  | cons row rest ih =>
    intro acc
    simp only [emitLoop, mapE, hgb, Bool.not_true, Bool.and_false,
      Bool.false_eq_true, if_false, if_neg, exceptBind_ok, exceptPure,
      limitTruthy]
    rw [if_neg hns]
    cases hp : projectRowRecord row sel with
    | error e => simp [hp]
    | ok p =>
      simp only [hp, exceptBind_ok]
      simp only [decide_False, Bool.false_and, Bool.false_eq_true, if_false,
        if_neg, exceptPure]
      rw [ih (acc ++ [p])]
      cases hm : mapE (fun row => projectRowRecord row sel) rest with
      | error e => simp [hm]
      | ok ps => simp [hm]

theorem validateCols_single_ok (bt : String) (bi : TableInfo) :
    ∀ (sel : List String) (a : Bool),
    (∀ c ∈ sel, containsSub ['.'] c.data = false ∧
      (supported_functions.contains c = true ∨
       bi.colNames.contains c = true)) →
    ∃ isAgg, validateCols [(bt, bi)] sel a = .ok isAgg := by
  intro sel
  induction sel with
  | nil => intro a _; exact ⟨a, rfl⟩
  | cons c cs ih =>
    intro a h
    obtain ⟨hdot, hmem⟩ := h c (by simp)
    have hrest := fun x hx => h x (List.mem_cons_of_mem c hx)
    unfold validateCols
    rw [hdot]
    by_cases hs : supported_functions.contains c
    · simp only [Bool.false_eq_true, if_false, if_neg, hs, if_true, if_pos hs]
      exact ih true hrest
    · have hcol : bi.colNames.contains c = true := by
        rcases hmem with hm | hm
        · exact absurd hm hs
        · exact hm
      simp only [Bool.false_eq_true, if_false, if_neg, hs, List.any_cons,
        List.any_nil, hcol, Bool.not_true, Bool.and_false, Bool.false_and,
        Bool.or_false]
      exact ih a hrest

theorem selLift_bind {α β : Type} (x : Except String α)
    (f : α → Except String β) :
    (selLift (x >>= f) : SelM β) = (selLift x >>= fun a => selLift (f a)) := by
  cases x <;> rfl

/-- The bucket loop plus the projection loop of the engine equals the
spec's per-group fields, accumulated. -/
theorem buckets_fold_eq (sel gs : List String) (whereC : Option String)
    (hdot : ∀ c ∈ sel, containsSub ['.'] c.data = false)
    (hnd : sel.Nodup) (hns : sel ≠ ["*"]) (hgs : gs ≠ []) :
    ∀ (buckets : List (List Value × List Row)) (acc pacc : List Row),
    mapE (fun row => projectRowRecord row sel) acc = .ok pacc →
    (do
      let agg ← List.foldlM (fun (acc : List Row) (b : List Value × List Row) => do
        match (← buildGroupRecord sel gs whereC b.1 b.2) with
        | some r => pure (acc ++ [r])
        | none => pure acc) acc buckets
      emitLoop sel whereC (some gs) none [] agg) =
    (do
      let recs ← mapE (fun (b : List Value × List Row) =>
        specGroupFields sel whereC b.2) buckets
      pure (pacc ++ recs.reduceOption)) := by
  intro buckets
  induction buckets with
  | nil =>
    intro acc pacc hacc
    simp only [List.foldlM, mapE, exceptBind_ok, exceptPure]
    rw [emitLoop_project sel whereC gs hgs hns acc []]
    simp [hacc]
  | cons b bs ih =>
    intro acc pacc hacc
    simp only [List.foldlM, mapE]
    rw [buildGroupRecord_eq]
    cases hsf : specGroupFields sel whereC b.2 with
    | error e => simp [hsf]
    | ok ro =>
      simp only [hsf, exceptMapF_ok, exceptBind_ok]
      cases ro with
      | none =>
        simp only [Option.map_none', exceptBind_pureArg]
        have := ih acc pacc hacc
        simp only [List.foldlM] at this ⊢
        rw [this]
        cases hm : mapE (fun (b : List Value × List Row) => specGroupFields sel whereC b.2) bs with
        | error e => simp [hm]
        | ok rs => simp [hm, List.reduceOption]
      | some fields =>
        simp only [Option.map_some']
        have hkeys : fields.map Prod.fst = sel :=
          specGroupFields_some_keys sel whereC b.2 fields hsf
        have hndf : (fields.map Prod.fst).Nodup := by rw [hkeys]; exact hnd
        have hproj : projectRowRecord
            (assocUpdate ((gs.zip b.1).foldl
              (fun acc kv => assocSet acc kv.1 kv.2)
              (if whereTruthy whereC then b.2.getLastD [] else [])) fields)
            sel = .ok fields := by
          rw [← hkeys]
          apply projectRowRecord_update
          · intro p hp
            refine ⟨?_, ?_⟩
            · have : p.1 ∈ fields.map Prod.fst := List.mem_map_of_mem Prod.fst hp
              exact hdot p.1 (hkeys ▸ this)
            · exact assocGet_update_of_mem_nodup fields _ p.1 p.2 (by
                cases p; exact hp) hndf
          · exact hndf
        have hacc' : mapE (fun row => projectRowRecord row sel)
            (acc ++ [assocUpdate ((gs.zip b.1).foldl
              (fun acc kv => assocSet acc kv.1 kv.2)
              (if whereTruthy whereC then b.2.getLastD [] else [])) fields]) =
            .ok (pacc ++ [fields]) := by
          rw [mapE_append, hacc]
          simp only [mapE, hproj, exceptBind_ok, exceptPure]
        have := ih _ _ hacc'
        simp only [exceptBind_pureArg]
        rw [this]
        cases hm : mapE (fun (b : List Value × List Row) => specGroupFields sel whereC b.2) bs with
        | error e => simp [hm]
        | ok rs => simp [hm, List.reduceOption]

/-- The grouped pipeline (group stage then emit loop) equals the spec
semantics. -/
theorem groupStage_emit_eq (sel gs : List String) (whereC : Option String)
    (hdot : ∀ c ∈ sel, containsSub ['.'] c.data = false)
    (hnd : sel.Nodup) (hns : sel ≠ ["*"]) (hgs : gs ≠ [])
    (base : List Row) :
    (do
      let agg ← groupStage sel gs whereC base
      emitLoop sel whereC (some gs) none [] agg) =
    specGroupedSelect sel gs whereC base := by
  unfold groupStage specGroupedSelect
  cases hb : groupRows gs base with
  | error e => simp [hb]
  | ok buckets =>
    simp only [hb, exceptBind_ok]
    exact buckets_fold_eq sel gs whereC hdot hnd hns hgs buckets [] [] rfl

/-- C4 amended theorem: a single-table SELECT with a GROUP BY (no
joins, no ORDER BY, no LIMIT; the selected columns unqualified,
pairwise distinct, not the bare star, each one either a supported
aggregate or a declared column; the row-valued `MAX(*)`/`MIN(*)`
aggregates excluded, see `buildGroupRecord`) evaluates to
`specGroupedSelect` over the file's rows: the WHERE predicate is
applied per-row inside each group before aggregation, a group emptied
by the filter is dropped, an aggregate is applied over the group's
retained rows and a plain column reads the first retained row - but
each emitted record consists of exactly the selected columns, so a
group-key column that is not itself selected is absent from the
output, contrary to the claim's "group-key columns ... and nothing
else" shape. -/
theorem C4_grouped_select (st : EngineState) (bt : String) (bi : TableInfo)
    (rawRows : List Row) (sel gs : List String) (whereC : Option String)
    (hBT : assocGet st.tables bt = some bi)
    (hBF : assocGet st.files bt = some rawRows)
    (hgs : gs ≠ [])
    (hsel : ∀ c ∈ sel, containsSub ['.'] c.data = false ∧
      (supported_functions.contains c = true ∨
       bi.colNames.contains c = true))
    (hnd : sel.Nodup) (hns : sel ≠ ["*"])
    (hmax : "MAX(*)" ∉ sel) (hmin : "MIN(*)" ∉ sel) :
    execute_select st ⟨sel, some bt, [], whereC, [], some gs, none⟩ =
      (specGroupedSelect sel gs whereC rawRows).map SelectOut.rows := by
  have hdot : ∀ c ∈ sel, containsSub ['.'] c.data = false :=
    fun c hc => (hsel c hc).1
  have hgb : groupByTruthy (some gs) = true := by
    cases gs with
    | nil => exact absurd rfl hgs
    | cons g gsr => rfl
  obtain ⟨isAgg, hva⟩ := validateCols_single_ok bt bi sel false hsel
  have hge := groupStage_emit_eq sel gs whereC hdot hnd hns hgs rawRows
  unfold execute_select execute_select_core
  simp only [List.foldlM, hBT, hBF, hva, hgb, exceptBind_ok, exceptPure,
    assocSet, Bool.not_true, Bool.and_false, Bool.false_and,
    Bool.false_eq_true, if_false]
  have hfi : assocGet [(bt, bi)] bt = some bi := by simp [assocGet]
  rw [hfi]
  simp only [Option.getD_some, List.length_nil, gt_iff_lt,
    lt_self_iff_false, if_false, if_true, file_scan, List.isEmpty,
    exceptBind_pureArg, selLift_ok, exceptBind_ok]
  have hlp : (selLift (pure rawRows) : SelM (List Row)) = pure rawRows := rfl
  rw [hlp]
  simp only [exceptBind_pureArg]
  rw [← selLift_bind, hge]
  cases hsp : specGroupedSelect sel gs whereC rawRows with
  | ok rs => rfl
  | error e => rfl

def c4_state : EngineState :=
  { initialState "./data" with
    tables := [("users", ⟨[("name", "text"), ("age", "int")], "id ASC"⟩)],
    files := [("users",
      [[("id", Value.int 1), ("name", Value.str "John"), ("age", Value.int 50)],
       [("id", Value.int 2), ("name", Value.str "Jane"), ("age", Value.int 51)]])] }

def c4_plan : SelectPlan :=
  ⟨["COUNT(*)"], some "users", [], none, [], some ["name"], none⟩

/-- C4 counterexample: grouping two distinct-name rows by `name` while
selecting only `COUNT(*)` yields two records holding nothing but the
`COUNT(*)` value - the group-key column `name` is absent from both,
although the claim requires every emitted record to carry the
group-key columns. -/
theorem C4_counterexample :
    execute_select c4_state c4_plan =
      .ok (.rows [[("COUNT(*)", Value.int 1)], [("COUNT(*)", Value.int 1)]]) ∧
    c4_plan.groupBy = some ["name"] ∧
    ∀ r ∈ [[("COUNT(*)", Value.int 1)], [("COUNT(*)", Value.int 1)]],
      assocGet r "name" = none := by
  refine ⟨by decide, rfl, by decide⟩

/-- C4 witness: the amended theorem at the counterexample's state. -/
theorem C4_witness :
    execute_select c4_state c4_plan =
      (specGroupedSelect ["COUNT(*)"] ["name"] none
        [[("id", Value.int 1), ("name", Value.str "John"), ("age", Value.int 50)],
         [("id", Value.int 2), ("name", Value.str "Jane"), ("age", Value.int 51)]]).map
        SelectOut.rows :=
  C4_grouped_select c4_state "users" ⟨[("name", "text"), ("age", "int")], "id ASC"⟩
    [[("id", Value.int 1), ("name", Value.str "John"), ("age", Value.int 50)],
     [("id", Value.int 2), ("name", Value.str "Jane"), ("age", Value.int 51)]]
    ["COUNT(*)"] ["name"] none
    (by decide) (by decide) (by decide) (by decide)
    (by decide) (by decide) (by decide) (by decide)

end MiniPG
